import Mathlib

/-!
eip2929-stats: the loader, the transaction classifier and the reporter

A shallow embedding of `main.go`.  The program reads per-block JSON files,
flattens them into one sequence of `txInfo` records (`parseFiles`), folds
the sequence into a `Stats` accumulator (`analyseTransactions`) and prints a
report (`Stats.print`).

Modelling conventions

* Go's `int` is 64 bits wide.  A value is an `Int`, and the arithmetic on gas,
  which the input files feed with arbitrary `int` values, wraps around as in
  Go: `addInt`, `subInt`, `mulInt` and `divInt` reduce their result into
  `-2^63 .. 2^63 - 1`.  Go's `/` truncates toward zero and panics on a zero
  divisor: it is `divInt` behind an explicit test of the divisor.  The
  counters only ever grow by one per record of a slice, or by the length of a
  slice, and a slice has fewer than `2^63` elements: they are counted exactly.
* A `*Stats` that the code mutates in place is threaded explicitly: every
  function takes the old value and returns the new one.
* Standard output is a list of chunks, one per `fmt` call, in program order.
* The file system and the JSON decoder are parameters (`World`): the program
  only observes what `ioutil.ReadDir`, `ioutil.ReadFile` and `json.Unmarshal`
  return.
* The one `float64` of the program is `float64(h) / 100` for an `int` `h`,
  printed with `%.02f`.  Conversion and division round to the nearest
  `float64`, a tie to the even one, and `%.02f` rounds the exact binary value
  to two decimals the same way: `float64Round` and `fmtPercent` do this on
  fractions of natural numbers.
-/

namespace Eip2929

/-- One transaction as recorded in a block file (`type txInfo struct`). -/
structure txInfo where
  TxNum : Int := 0
  TxHash : String := ""
  YoloGasUsed : Int := 0
  YoloSteps : Int := 0
  YoloError : Bool := false
  Yolo2xGasUsed : Int := 0
  Yolo2xSteps : Int := 0
  Yolo2xError : Bool := false
  MainGasUsed : Int := 0
  MainSteps : Int := 0
  MainError : Bool := false
  BlockHash : String := ""
  deriving DecidableEq, Repr

/-- The accumulator of a run (`type Stats struct`); `{}` is Go's `&Stats{}`. -/
structure Stats where
  numBlocks : Int := 0
  numTxs : Int := 0
  emptyBlocks : Int := 0
  unaffected : Int := 0
  mainError : Int := 0
  salvageable : Int := 0
  broken : Int := 0
  gasUsedMain : Int := 0
  gasUsedYolo : Int := 0
  gasUsedYolo2x : Int := 0
  maxDiff : Int := 0
  maxDiffBase : Int := 0
  maxDiffYolo : Int := 0
  deriving DecidableEq, Repr

/-- The values of Go's `int` on a 64-bit platform: `-2^63` to `2^63 - 1`. -/
@[reducible] def fitsInt (x : Int) : Prop :=
  -9223372036854775808 ≤ x ∧ x ≤ 9223372036854775807

/-- Two's-complement wrap-around into the range of Go's `int`. -/
def wrapInt (x : Int) : Int :=
  (x + 9223372036854775808) % 18446744073709551616 - 9223372036854775808

/-- Go's `a + b` on `int`. -/
def addInt (a b : Int) : Int := wrapInt (a + b)

/-- Go's `a - b` on `int`. -/
def subInt (a b : Int) : Int := wrapInt (a - b)

/-- Go's `a * b` on `int`. -/
def mulInt (a b : Int) : Int := wrapInt (a * b)

/-- Go's `a / b` on `int` for a non-zero `b`: the quotient truncated toward
zero; the one quotient out of range, `-2^63 / -1`, wraps to `-2^63`. -/
def divInt (a b : Int) : Int := wrapInt (Int.tdiv a b)

/-- The line `analyseTransactions` prints for a broken transaction
(`fmt.Printf` with `%d` for the step counts and `%v` for the rest). -/
def brokenLine (tx : txInfo) : String :=
  "tx txbase-steps: " ++ toString tx.MainSteps ++
  ", tx2929-steps: " ++ toString tx.YoloSteps ++
  ", tx2929b-steps: " ++ toString tx.Yolo2xSteps ++
  ", tx2929b-Error: " ++ toString tx.Yolo2xError ++
  ", block:" ++ tx.BlockHash ++
  ",  txHash: " ++ tx.TxHash ++ "\n"

/-- The state the loop of `analyseTransactions` works on: the accumulator and
the lines written to standard output so far. -/
structure Run where
  stats : Stats
  stdout : List String
  deriving DecidableEq, Repr

/-- One iteration of the `for _, tx := range txs` loop of
`analyseTransactions`; each `continue` is the end of a branch. -/
def analyseTx (removeFP : Bool) (run : Run) (tx : txInfo) : Run :=
  let stats := run.stats
  if tx.MainError then
    let stats := { stats with mainError := stats.mainError + 1 }
    let stats := { stats with unaffected := stats.unaffected + 1 }
    { run with stats := stats }
  else if !tx.YoloError && tx.MainSteps == tx.YoloSteps then
    let stats := { stats with gasUsedMain := addInt stats.gasUsedMain tx.MainGasUsed }
    let stats := { stats with gasUsedYolo := addInt stats.gasUsedYolo tx.YoloGasUsed }
    let stats := { stats with unaffected := stats.unaffected + 1 }
    let diff := subInt tx.Yolo2xGasUsed tx.MainGasUsed
    let stats :=
      if diff > stats.maxDiff then
        { stats with maxDiff := diff, maxDiffBase := tx.MainGasUsed,
                     maxDiffYolo := tx.Yolo2xGasUsed }
      else stats
    { run with stats := stats }
  else if !tx.Yolo2xError && tx.MainSteps == tx.Yolo2xSteps then
    let stats := { stats with gasUsedMain := addInt stats.gasUsedMain tx.MainGasUsed }
    let stats := { stats with gasUsedYolo := addInt stats.gasUsedYolo tx.Yolo2xGasUsed }
    let stats := { stats with salvageable := stats.salvageable + 1 }
    let diff := subInt tx.Yolo2xGasUsed tx.MainGasUsed
    let stats :=
      if diff > stats.maxDiff then
        { stats with maxDiff := diff, maxDiffBase := tx.MainGasUsed,
                     maxDiffYolo := tx.Yolo2xGasUsed }
      else stats
    { run with stats := stats }
  else if removeFP && (!tx.YoloError && tx.MainSteps ≤ tx.YoloSteps) then
    let stats := { stats with gasUsedMain := addInt stats.gasUsedMain tx.MainGasUsed }
    let stats := { stats with gasUsedYolo := addInt stats.gasUsedYolo tx.YoloGasUsed }
    let stats := { stats with unaffected := stats.unaffected + 1 }
    let diff := subInt tx.Yolo2xGasUsed tx.MainGasUsed
    let stats :=
      if diff > stats.maxDiff then
        { stats with maxDiff := diff, maxDiffBase := tx.MainGasUsed,
                     maxDiffYolo := tx.Yolo2xGasUsed }
      else stats
    { run with stats := stats }
  else if removeFP && (!tx.Yolo2xError && tx.MainSteps ≤ tx.Yolo2xSteps) then
    let stats := { stats with gasUsedMain := addInt stats.gasUsedMain tx.MainGasUsed }
    let stats := { stats with gasUsedYolo := addInt stats.gasUsedYolo tx.Yolo2xGasUsed }
    let stats := { stats with salvageable := stats.salvageable + 1 }
    let diff := subInt tx.Yolo2xGasUsed tx.MainGasUsed
    let stats :=
      if diff > stats.maxDiff then
        { stats with maxDiff := diff, maxDiffBase := tx.MainGasUsed,
                     maxDiffYolo := tx.Yolo2xGasUsed }
      else stats
    { run with stats := stats }
  else
    { stats := { stats with broken := stats.broken + 1 },
      stdout := run.stdout ++ [brokenLine tx] }

/-- What a call of `analyseTransactions` leaves behind: the mutated `*Stats`,
the lines printed, and the returned `error` (`none` is Go's `nil`). -/
structure Analysis where
  stats : Stats
  stdout : List String
  err : Option String
  deriving DecidableEq, Repr

/-- The function `analyseTransactions(txs, stats, removeFP)`: the loop over
`txs`, then `return nil`. -/
def analyseTransactions (txs : List txInfo) (stats : Stats) (removeFP : Bool) : Analysis :=
  let run := txs.foldl (analyseTx removeFP) { stats := stats, stdout := [] }
  { stats := run.stats, stdout := run.stdout, err := none }

/-- The outside world as `parseFiles` observes it: `ioutil.ReadDir` (the names
of the entries, in enumeration order), `ioutil.ReadFile` and `json.Unmarshal`
into a `[]txInfo`.  An `Except.error` is a non-nil Go `error`. -/
structure World where
  readDir : String → Except String (List String)
  readFile : String → Except String String
  unmarshal : String → Except String (List txInfo)

/-- The test `strings.HasPrefix(name, pre)`. -/
def hasPrefixStr (name pre : String) : Bool :=
  pre.data.isPrefixOf name.data

/-- What `parseFiles` returns: the flat record slice (a nil slice is `[]`),
the `*Stats` (`none` is the nil pointer) and the `error` (`none` is nil). -/
structure Loaded where
  data : List txInfo
  stats : Option Stats
  err : Option String
  deriving DecidableEq, Repr

/-- The loop `for _, info := range finfo` of `parseFiles`, with the slice
`data` and the accumulator `stats` built so far. -/
def parseEntries (w : World) : List String → List txInfo → Stats → Loaded
  | [], data, stats => { data := data, stats := some stats, err := none }
  | name :: rest, data, stats =>
    if !hasPrefixStr name "block_" then
      parseEntries w rest data stats
    else
      let stats := { stats with numBlocks := stats.numBlocks + 1 }
      match w.readFile ("./rawdata/" ++ name) with
      | .error err => { data := [], stats := none, err := some err }
      | .ok byts =>
        match w.unmarshal byts with
        | .error err => { data := [], stats := none, err := some err }
        | .ok blockdata =>
          let stats := { stats with numTxs := stats.numTxs + blockdata.length }
          let stats :=
            if blockdata.length == 0 then
              { stats with emptyBlocks := stats.emptyBlocks + 1 }
            else stats
          let data := data ++ blockdata.map (fun tx => { tx with BlockHash := name })
          parseEntries w rest data stats

/-- The function `parseFiles()`: list `./rawdata/`, then load every entry
whose name starts with `block_`. -/
def parseFiles (w : World) : Loaded :=
  match w.readDir "./rawdata/" with
  | .error err => { data := [], stats := none, err := some err }
  | .ok finfo => parseEntries w finfo [] {}

/-- Scenario A of the specification: a transaction that fails on mainnet. -/
def scenarioA : txInfo := { MainError := true }

/-- Scenario B of the specification: the step counts of main and yolo agree. -/
def scenarioB : txInfo :=
  { MainSteps := 10, YoloSteps := 10, YoloError := false,
    MainGasUsed := 100, YoloGasUsed := 90, Yolo2xGasUsed := 95 }

/-- Scenario C of the specification: no exact match, yolo takes more steps. -/
def scenarioC : txInfo := { MainSteps := 10, YoloSteps := 12, YoloError := false }

/-- Scenario D of the specification: both variants fail. -/
def scenarioD : txInfo := { MainSteps := 10, YoloError := true, Yolo2xError := true }

/-- A world with two block files and one stray entry. -/
def demoWorld : World where
  readDir := fun _ => .ok ["block_1", "notes.txt", "block_2"]
  readFile := fun path => .ok path
  unmarshal := fun byts =>
    if byts == "./rawdata/block_1" then .ok [scenarioA, scenarioB] else .ok [scenarioD]

/-! ## Names for the parts of the loop body -/

/-- The accumulator after `analyseTransactions(txs, stats, removeFP)` returns. -/
def statsAfter (txs : List txInfo) (stats : Stats) (removeFP : Bool) : Stats :=
  (analyseTransactions txs stats removeFP).stats

/-- The effect of one loop iteration on the accumulator alone. -/
def stepStats (removeFP : Bool) (stats : Stats) (tx : txInfo) : Stats :=
  (analyseTx removeFP { stats := stats, stdout := [] } tx).stats

/-- The condition of the first exact match,
`!tx.YoloError && tx.MainSteps == tx.YoloSteps`. -/
def exactYolo (tx : txInfo) : Bool :=
  !tx.YoloError && tx.MainSteps == tx.YoloSteps

/-- The condition of the second exact match,
`!tx.Yolo2xError && tx.MainSteps == tx.Yolo2xSteps`. -/
def exactYolo2x (tx : txInfo) : Bool :=
  !tx.Yolo2xError && tx.MainSteps == tx.Yolo2xSteps

/-- The condition of the first lenient match,
`!tx.YoloError && tx.MainSteps <= tx.YoloSteps`. -/
def lenientYolo (tx : txInfo) : Bool :=
  !tx.YoloError && tx.MainSteps ≤ tx.YoloSteps

/-- The condition of the second lenient match,
`!tx.Yolo2xError && tx.MainSteps <= tx.Yolo2xSteps`. -/
def lenientYolo2x (tx : txInfo) : Bool :=
  !tx.Yolo2xError && tx.MainSteps ≤ tx.Yolo2xSteps

/-- The block every bookkeeping branch ends with:
`if diff := tx.Yolo2xGasUsed - tx.MainGasUsed; diff > stats.maxDiff`, then
remember `diff` and the pair it comes from. -/
def updateMaxDiff (stats : Stats) (tx : txInfo) : Stats :=
  if subInt tx.Yolo2xGasUsed tx.MainGasUsed > stats.maxDiff then
    { stats with maxDiff := subInt tx.Yolo2xGasUsed tx.MainGasUsed,
                 maxDiffBase := tx.MainGasUsed, maxDiffYolo := tx.Yolo2xGasUsed }
  else stats

/-- A bookkept record is settled by a yolo rule (exact, or lenient once the
exact yolo2x rule has failed) and not by a yolo2x rule. -/
def viaYolo (tx : txInfo) : Bool :=
  exactYolo tx || (!exactYolo2x tx && lenientYolo tx)

/-- The three assignments a bookkeeping branch starts with: the two gas sums
and the counter of the category, `unaffected` for a yolo rule and
`salvageable` for a yolo2x rule. -/
def countGas (stats : Stats) (tx : txInfo) (yolo : Bool) : Stats :=
  if yolo then
    { stats with gasUsedMain := addInt stats.gasUsedMain tx.MainGasUsed,
                 gasUsedYolo := addInt stats.gasUsedYolo tx.YoloGasUsed,
                 unaffected := stats.unaffected + 1 }
  else
    { stats with gasUsedMain := addInt stats.gasUsedMain tx.MainGasUsed,
                 gasUsedYolo := addInt stats.gasUsedYolo tx.Yolo2xGasUsed,
                 salvageable := stats.salvageable + 1 }

/-- The record takes one of the four branches of `analyseTransactions` that
add to the gas sums and compare against `maxDiff` (the two exact matches and,
under `removeFP`, the two lenient matches). -/
def bookkept (removeFP : Bool) (tx : txInfo) : Bool :=
  !tx.MainError &&
    (exactYolo tx || exactYolo2x tx || (removeFP && (lenientYolo tx || lenientYolo2x tx)))

/-- The bookkept records of a list whose gas difference
`Yolo2xGasUsed - MainGasUsed`, as Go computes it, equals `d`. -/
def attaining (removeFP : Bool) (d : Int) (txs : List txInfo) : List txInfo :=
  txs.filter (fun tx => bookkept removeFP tx && subInt tx.Yolo2xGasUsed tx.MainGasUsed == d)

/-- The accumulator without the remembered pair `maxDiffBase`, `maxDiffYolo`. -/
def counters (s : Stats) : Stats :=
  { s with maxDiffBase := 0, maxDiffYolo := 0 }

/-- A record that matches yolo2x exactly and yolo not at all. -/
def salvageTx : txInfo :=
  { MainSteps := 10, YoloSteps := 7, Yolo2xSteps := 10,
    MainGasUsed := 100, YoloGasUsed := 80, Yolo2xGasUsed := 130 }

/-- A record that matches yolo2x exactly while yolo only passes leniently. -/
def lenientAndExact2x : txInfo :=
  { MainSteps := 10, YoloSteps := 12, Yolo2xSteps := 10,
    MainGasUsed := 100, YoloGasUsed := 80, Yolo2xGasUsed := 130 }

/-- A record of `2^63 - 1` gas on main and under yolo, same steps. -/
def maxGasTx : txInfo :=
  { MainGasUsed := 9223372036854775807, YoloGasUsed := 9223372036854775807 }

/-- A record of `2^63 - 1` gas that only the lenient yolo rule accepts. -/
def lenientMaxGasTx : txInfo :=
  { MainSteps := 10, YoloSteps := 12,
    MainGasUsed := 9223372036854775807, YoloGasUsed := 9223372036854775807 }

/-- A record whose difference `Yolo2xGasUsed - MainGasUsed` exceeds `2^63 - 1`
as an integer. -/
def wrapDeltaTx : txInfo :=
  { MainGasUsed := -2, Yolo2xGasUsed := 9223372036854775807 }

/-- The transaction the source quotes as broken with twice the gas too. -/
def stakeTx : txInfo :=
  { MainSteps := 18655, YoloSteps := 9053, Yolo2xSteps := 18156, Yolo2xError := true,
    BlockHash := "block_11354984-0xccc7e971-analysis-223546762",
    TxHash := "0x4930308d13b9ac5b49214971412f115339e7e88480b420bb04b42631d49ad9a4" }

/-- A record of one unit of gas, same steps on main and under yolo. -/
def unitGasTx : txInfo := { MainGasUsed := 1, YoloGasUsed := 1 }

/-- A record with delta `5`. -/
def tieA : txInfo := { MainGasUsed := 0, Yolo2xGasUsed := 5 }

/-- A record whose delta wraps around to `5`. -/
def tieB : txInfo :=
  { MainGasUsed := 9223372036854775803, Yolo2xGasUsed := -9223372036854775808 }

/-! ## The reporter and the program -/

/-- The integer that `print` converts to `float64`: `100*100*(y-m)/m` on Go
`int`s, for a non-zero `m`. -/
def percentHundredths (y m : Int) : Int :=
  divInt (mulInt (100 * 100) (subInt y m)) m

/-- The fraction `n / d` rounded to the nearest integer, a tie to the even
one. -/
def roundHalfEven (n d : Nat) : Nat :=
  if 2 * (n % d) < d then n / d
  else if 2 * (n % d) > d then n / d + 1
  else if (n / d) % 2 == 0 then n / d
  else n / d + 1

/-- The position of the highest set bit of `n`, for `n` below `2 ^ fuel`. -/
def highBit : Nat → Nat → Nat
  | 0, _ => 0
  | fuel + 1, n => if n < 2 then 0 else highBit fuel (n / 2) + 1

/-- The fraction `n / d` rounded to the nearest `float64`, 53 significant bits
and a tie to the even one, returned as a fraction; for values in the normal
range of `float64`, which every `int` and every `int` over 100 is in. -/
def float64Round (n d : Nat) : Nat × Nat :=
  if n == 0 then (0, 1)
  else
    let l : Int := (highBit 256 n : Int) - (highBit 256 d : Int)
    let ge : Bool :=
      if 0 ≤ l then decide (d * 2 ^ l.toNat ≤ n) else decide (d ≤ n * 2 ^ (-l).toNat)
    let e : Int := (if ge then l else l - 1) - 52
    if 0 ≤ e then (roundHalfEven n (d * 2 ^ e.toNat) * 2 ^ e.toNat, 1)
    else (roundHalfEven (n * 2 ^ (-e).toNat) d, 2 ^ (-e).toNat)

/-- The text of `fmt.Sprintf("%.02f", float64(h) / 100)` for an `int` `h`:
`h` converted to `float64`, divided by the `float64` 100, and the quotient
shown with two decimals. -/
def fmtPercent (h : Int) : String :=
  let f := float64Round h.natAbs 1
  let g := float64Round f.1 (f.2 * 100)
  let k := roundHalfEven (g.1 * 100) g.2
  (if h < 0 then "-" else "") ++ toString (k / 100) ++ "." ++
    (if k % 100 < 10 then "0" else "") ++ toString (k % 100)

/-- What a call of `print` leaves behind: the chunks written to standard
output, one per `fmt` call, and the run-time panic that stopped it, if any. -/
structure Printed where
  stdout : List String
  panic : Option String
  deriving DecidableEq, Repr

/-- The method `(stats *Stats) print()`.  The eight count lines come first;
then `y`, `m` and `percent` are computed, and the integer division by `m`
panics when `m` is zero; the gas lines and the max-delta line follow. -/
def Stats.print (stats : Stats) : Printed :=
  let counts : List String :=
    [ "Number of blocks: `" ++ toString stats.numBlocks ++ "`\n",
      " - number of empty (ignored) blocks: `" ++ toString stats.emptyBlocks ++ "`\n",
      "Number of transactions: `" ++ toString stats.numTxs ++ "`\n",
      "\n",
      "Number of unaffected transactions: `" ++ toString stats.unaffected ++ "`\n",
      "- broken on mainnet already: `" ++ toString stats.mainError ++ "`\n",
      "Number of salvageable transactions: `" ++ toString stats.salvageable ++ "`\n",
      "Number of broken transactions: `" ++ toString stats.broken ++ "`\n" ]
  let y := addInt stats.gasUsedYolo stats.gasUsedYolo2x
  let m := stats.gasUsedMain
  if m == 0 then
    { stdout := counts, panic := some "runtime error: integer divide by zero" }
  else
    let percent := percentHundredths y m
    { stdout := counts ++
        [ "\n",
          "Gas usage for mainnet vs yolo: `" ++ toString m ++ "` vs `" ++ toString y ++ "`\n",
          "The gas usage with yolo rules is `" ++ fmtPercent percent ++ " %`\n",
          "\n",
          "Largest EIP-2929 gas difference " ++ toString stats.maxDiff ++ " (from `" ++
            toString stats.maxDiffBase ++ "` to `" ++ toString stats.maxDiffYolo ++ "`).\n" ],
      panic := none }

/-- How the process ends: `os.Exit(code)` or falling off `main` (code 0), or
a run-time panic. -/
inductive Outcome where
  | exited (code : Nat)
  | panicked (msg : String)
  deriving DecidableEq, Repr

/-- What a run of the program leaves behind. -/
structure Program where
  stdout : List String
  stderr : List String
  outcome : Outcome
  deriving DecidableEq, Repr

/-- The function `main()`: load, and on an error print it to standard error
(`fmt.Fprint`, so the verb is printed as it stands) and exit with 1; otherwise
classify with `removeFP = true` and print the report.  A nil `*Stats` with a
nil error, which `parseFiles` never returns, is a nil dereference. -/
def main (w : World) : Program :=
  let loaded := parseFiles w
  match loaded.err, loaded.stats with
  | some err, _ =>
    { stdout := [], stderr := ["Error: %v\n" ++ err], outcome := .exited 1 }
  | none, none =>
    { stdout := [], stderr := [],
      outcome := .panicked "runtime error: invalid memory address or nil pointer dereference" }
  | none, some stats =>
    let analysis := analyseTransactions loaded.data stats true
    let printed := analysis.stats.print
    { stdout := analysis.stdout ++ printed.stdout, stderr := [],
      outcome :=
        match printed.panic with
        | some msg => .panicked msg
        | none => .exited 0 }

/-- The percent delta in hundredths as the specification words it:
`100 × (y − m) / m` rounded to two decimal places, that is the rational
`10000 (y − m) / m` rounded to the nearest integer. -/
def specPercentHundredths (y m : Int) : Int :=
  round ((10000 * (y - m) : ℚ) / m)

/-- What reading and decoding one entry gives: `ioutil.ReadFile` on its path,
then `json.Unmarshal` of the bytes. -/
def entryRecords (w : World) (name : String) : Except String (List txInfo) :=
  match w.readFile ("./rawdata/" ++ name) with
  | .error err => .error err
  | .ok byts => w.unmarshal byts

/-- The entry cannot be read or cannot be parsed. -/
def entryFails (w : World) (name : String) : Bool :=
  match entryRecords w name with
  | .error _ => true
  | .ok _ => false

/-- The records of an entry that reads and parses, `[]` otherwise. -/
def recordsOf (w : World) (name : String) : List txInfo :=
  match entryRecords w name with
  | .error _ => []
  | .ok blockdata => blockdata

/-- The entries of a listing whose name starts with `block_`, in order. -/
def blockNames (names : List String) : List String :=
  names.filter (fun name => hasPrefixStr name "block_")

/-- The records of an entry with `BlockHash` set to the name of the entry. -/
def tagged (w : World) (name : String) : List txInfo :=
  (recordsOf w name).map (fun tx => { tx with BlockHash := name })

/-- The largest of `0` and the gas differences `Yolo2xGasUsed - MainGasUsed`,
as Go computes them, of the bookkept records of a list. -/
def maxDelta (removeFP : Bool) (txs : List txInfo) : Int :=
  ((txs.filter (bookkept removeFP)).map
    (fun tx => subInt tx.Yolo2xGasUsed tx.MainGasUsed)).foldl max 0

/-- The record is counted unaffected by a branch that does gas bookkeeping:
the exact yolo match or, under `removeFP`, the lenient one. -/
def gasUnaffected (removeFP : Bool) (tx : txInfo) : Bool :=
  !tx.MainError && (exactYolo tx || (!exactYolo2x tx && (removeFP && lenientYolo tx)))

/-- The record is counted salvageable: the exact yolo2x match or, under
`removeFP`, the lenient one, once the yolo rules before it have failed. -/
def countedSalvageable (removeFP : Bool) (tx : txInfo) : Bool :=
  !tx.MainError && !exactYolo tx &&
    (exactYolo2x tx || (removeFP && (!lenientYolo tx && lenientYolo2x tx)))

/-- A record that costs 3 gas on main and 5 under yolo, same steps. -/
def thirdsTx : txInfo := { MainGasUsed := 3, YoloGasUsed := 5 }

/-- The accumulator after that record alone. -/
def thirdsStats : Stats := { gasUsedMain := 3, gasUsedYolo := 5, unaffected := 1 }

/-- Gas sums whose difference times `100*100` is beyond the range of `int`. -/
def overflowStats : Stats := { gasUsedMain := 1, gasUsedYolo := 922337203685477582 }

/-- An empty `./rawdata/` directory. -/
def emptyWorld : World where
  readDir := fun _ => .ok []
  readFile := fun _ => .error "open: no such file or directory"
  unmarshal := fun _ => .error "unexpected end of JSON input"

/-- A directory whose second block file is not valid JSON, after a first
block file that parses and a stray entry that would not. -/
def brokenWorld : World where
  readDir := fun _ => .ok ["block_1", "README", "block_2", "block_3"]
  readFile := fun path => .ok path
  unmarshal := fun byts =>
    if byts == "./rawdata/block_1" then .ok [scenarioA, scenarioB]
    else if byts == "./rawdata/block_3" then .ok [scenarioC]
    else .error "invalid character"

/-- A directory with an empty block, a block of two records and a stray
entry that cannot be read. -/
def mixedWorld : World where
  readDir := fun _ => .ok ["block_a", "junk", "block_b"]
  readFile := fun path =>
    if path == "./rawdata/junk" then .error "permission denied" else .ok path
  unmarshal := fun byts =>
    if byts == "./rawdata/block_a" then .ok [] else .ok [scenarioB, scenarioD]

/-! ## Arithmetic of the 64-bit int -/

theorem wrapInt_of_fits (x : Int) (h : fitsInt x) : wrapInt x = x := by
  unfold wrapInt
  unfold fitsInt at h
  omega

theorem wrapInt_fits (x : Int) : fitsInt (wrapInt x) := by
  unfold wrapInt fitsInt
  omega

theorem wrapInt_wrapInt (x : Int) : wrapInt (wrapInt x) = wrapInt x :=
  wrapInt_of_fits _ (wrapInt_fits x)

theorem wrapInt_add_left (x y : Int) : wrapInt (wrapInt x + y) = wrapInt (x + y) := by
  unfold wrapInt
  omega

theorem addInt_of_fits (a b : Int) (h : fitsInt (a + b)) : addInt a b = a + b :=
  wrapInt_of_fits _ h

theorem subInt_of_fits (a b : Int) (h : fitsInt (a - b)) : subInt a b = a - b :=
  wrapInt_of_fits _ h

theorem mulInt_of_fits (a b : Int) (h : fitsInt (a * b)) : mulInt a b = a * b :=
  wrapInt_of_fits _ h

theorem addInt_zero_of_fits (a : Int) (h : fitsInt a) : addInt a 0 = a := by
  unfold addInt
  rw [add_zero]
  exact wrapInt_of_fits a h

theorem addInt_right_comm (a b c : Int) : addInt (addInt a b) c = addInt (addInt a c) b := by
  unfold addInt wrapInt
  omega

theorem addInt_addInt (a b c : Int) : addInt (addInt a b) c = wrapInt (a + b + c) := by
  unfold addInt
  exact wrapInt_add_left _ _

/-! ## The loop, one record at a time -/

theorem analyseTx_stats (removeFP : Bool) (run : Run) (tx : txInfo) :
    (analyseTx removeFP run tx).stats = stepStats removeFP run.stats tx := by
  unfold stepStats analyseTx
  split_ifs <;> rfl

theorem foldl_analyseTx_stats (removeFP : Bool) (txs : List txInfo) (run : Run) :
    (txs.foldl (analyseTx removeFP) run).stats = txs.foldl (stepStats removeFP) run.stats := by
  induction txs generalizing run with
  | nil => rfl
  | cons tx rest ih => simp only [List.foldl_cons, ih, analyseTx_stats]

theorem statsAfter_eq_foldl (txs : List txInfo) (stats : Stats) (removeFP : Bool) :
    statsAfter txs stats removeFP = txs.foldl (stepStats removeFP) stats := by
  simp [statsAfter, analyseTransactions, foldl_analyseTx_stats]

theorem statsAfter_nil (stats : Stats) (removeFP : Bool) :
    statsAfter [] stats removeFP = stats := rfl

theorem statsAfter_snoc (pre : List txInfo) (tx : txInfo) (stats : Stats) (removeFP : Bool) :
    statsAfter (pre ++ [tx]) stats removeFP =
      stepStats removeFP (statsAfter pre stats removeFP) tx := by
  simp [statsAfter_eq_foldl, List.foldl_append]

theorem stdout_snoc (pre : List txInfo) (tx : txInfo) (stats : Stats) (removeFP : Bool) :
    (analyseTransactions (pre ++ [tx]) stats removeFP).stdout =
      (analyseTx removeFP ⟨statsAfter pre stats removeFP,
        (analyseTransactions pre stats removeFP).stdout⟩ tx).stdout := by
  simp [statsAfter, analyseTransactions, List.foldl_append]


theorem exactYolo_iff (tx : txInfo) :
    exactYolo tx = true ↔ tx.YoloError = false ∧ tx.MainSteps = tx.YoloSteps := by
  simp [exactYolo]

theorem exactYolo2x_iff (tx : txInfo) :
    exactYolo2x tx = true ↔ tx.Yolo2xError = false ∧ tx.MainSteps = tx.Yolo2xSteps := by
  simp [exactYolo2x]

theorem lenientYolo_iff (tx : txInfo) :
    lenientYolo tx = true ↔ tx.YoloError = false ∧ tx.MainSteps ≤ tx.YoloSteps := by
  simp [lenientYolo]

theorem lenientYolo2x_iff (tx : txInfo) :
    lenientYolo2x tx = true ↔ tx.Yolo2xError = false ∧ tx.MainSteps ≤ tx.Yolo2xSteps := by
  simp [lenientYolo2x]

theorem exactYolo_lenient (tx : txInfo) (h : exactYolo tx = true) : lenientYolo tx = true := by
  rw [exactYolo_iff] at h
  rw [lenientYolo_iff]
  exact ⟨h.1, le_of_eq h.2⟩

theorem exactYolo2x_lenient (tx : txInfo) (h : exactYolo2x tx = true) :
    lenientYolo2x tx = true := by
  rw [exactYolo2x_iff] at h
  rw [lenientYolo2x_iff]
  exact ⟨h.1, le_of_eq h.2⟩

/-- The loop body on the accumulator, with the branch conditions named. -/
theorem stepStats_branches (fp : Bool) (s : Stats) (tx : txInfo) :
    stepStats fp s tx =
      if tx.MainError = true then
        { s with mainError := s.mainError + 1, unaffected := s.unaffected + 1 }
      else if exactYolo tx = true then
        updateMaxDiff { s with gasUsedMain := addInt s.gasUsedMain tx.MainGasUsed,
                               gasUsedYolo := addInt s.gasUsedYolo tx.YoloGasUsed,
                               unaffected := s.unaffected + 1 } tx
      else if exactYolo2x tx = true then
        updateMaxDiff { s with gasUsedMain := addInt s.gasUsedMain tx.MainGasUsed,
                               gasUsedYolo := addInt s.gasUsedYolo tx.Yolo2xGasUsed,
                               salvageable := s.salvageable + 1 } tx
      else if (fp && lenientYolo tx) = true then
        updateMaxDiff { s with gasUsedMain := addInt s.gasUsedMain tx.MainGasUsed,
                               gasUsedYolo := addInt s.gasUsedYolo tx.YoloGasUsed,
                               unaffected := s.unaffected + 1 } tx
      else if (fp && lenientYolo2x tx) = true then
        updateMaxDiff { s with gasUsedMain := addInt s.gasUsedMain tx.MainGasUsed,
                               gasUsedYolo := addInt s.gasUsedYolo tx.Yolo2xGasUsed,
                               salvageable := s.salvageable + 1 } tx
      else { s with broken := s.broken + 1 } := by
  simp only [stepStats, analyseTx, exactYolo, exactYolo2x, lenientYolo, lenientYolo2x,
    updateMaxDiff]
  split_ifs <;> rfl

/-- The standard output after one more record, branch by branch. -/
theorem analyseTx_stdout_branches (fp : Bool) (run : Run) (tx : txInfo) :
    (analyseTx fp run tx).stdout =
      if tx.MainError = true then run.stdout
      else if exactYolo tx = true then run.stdout
      else if exactYolo2x tx = true then run.stdout
      else if (fp && lenientYolo tx) = true then run.stdout
      else if (fp && lenientYolo2x tx) = true then run.stdout
      else run.stdout ++ [brokenLine tx] := by
  simp only [analyseTx, exactYolo, exactYolo2x, lenientYolo, lenientYolo2x]
  split_ifs <;> rfl

/-- Only a broken record prints. -/
theorem analyseTx_stdout (fp : Bool) (run : Run) (tx : txInfo) :
    (analyseTx fp run tx).stdout =
      if tx.MainError = true ∨ bookkept fp tx = true then run.stdout
      else run.stdout ++ [brokenLine tx] := by
  rw [analyseTx_stdout_branches]
  unfold bookkept
  cases tx.MainError <;> cases exactYolo tx <;> cases exactYolo2x tx <;> cases fp <;>
    cases lenientYolo tx <;> cases lenientYolo2x tx <;> simp

/-- The loop body on the accumulator by the kind of record. -/
theorem stepStats_kinds (fp : Bool) (s : Stats) (tx : txInfo) :
    stepStats fp s tx =
      if tx.MainError = true then
        { s with mainError := s.mainError + 1, unaffected := s.unaffected + 1 }
      else if bookkept fp tx = true then updateMaxDiff (countGas s tx (viaYolo tx)) tx
      else { s with broken := s.broken + 1 } := by
  rw [stepStats_branches]
  unfold bookkept viaYolo countGas
  cases tx.MainError <;> cases exactYolo tx <;> cases exactYolo2x tx <;> cases fp <;>
    cases lenientYolo tx <;> cases lenientYolo2x tx <;> simp

theorem exactYolo_eq_false (tx : txInfo)
    (h : ¬ (tx.YoloError = false ∧ tx.MainSteps = tx.YoloSteps)) : exactYolo tx = false :=
  Bool.eq_false_iff.2 (mt (exactYolo_iff tx).1 h)

theorem exactYolo2x_eq_false (tx : txInfo)
    (h : ¬ (tx.Yolo2xError = false ∧ tx.MainSteps = tx.Yolo2xSteps)) : exactYolo2x tx = false :=
  Bool.eq_false_iff.2 (mt (exactYolo2x_iff tx).1 h)

theorem lenientYolo_eq_false (tx : txInfo)
    (h : ¬ (tx.YoloError = false ∧ tx.MainSteps ≤ tx.YoloSteps)) : lenientYolo tx = false :=
  Bool.eq_false_iff.2 (mt (lenientYolo_iff tx).1 h)

theorem lenientYolo2x_eq_false (tx : txInfo)
    (h : ¬ (tx.Yolo2xError = false ∧ tx.MainSteps ≤ tx.Yolo2xSteps)) :
    lenientYolo2x tx = false :=
  Bool.eq_false_iff.2 (mt (lenientYolo2x_iff tx).1 h)

/-- The max-delta block touches `maxDiff`, `maxDiffBase` and `maxDiffYolo` only. -/
theorem updateMaxDiff_frame (s : Stats) (tx : txInfo) :
    (updateMaxDiff s tx).numBlocks = s.numBlocks ∧
    (updateMaxDiff s tx).numTxs = s.numTxs ∧
    (updateMaxDiff s tx).emptyBlocks = s.emptyBlocks ∧
    (updateMaxDiff s tx).unaffected = s.unaffected ∧
    (updateMaxDiff s tx).mainError = s.mainError ∧
    (updateMaxDiff s tx).salvageable = s.salvageable ∧
    (updateMaxDiff s tx).broken = s.broken ∧
    (updateMaxDiff s tx).gasUsedMain = s.gasUsedMain ∧
    (updateMaxDiff s tx).gasUsedYolo = s.gasUsedYolo ∧
    (updateMaxDiff s tx).gasUsedYolo2x = s.gasUsedYolo2x := by
  unfold updateMaxDiff
  split_ifs <;> simp

theorem updateMaxDiff_maxDiff (s : Stats) (tx : txInfo) :
    (updateMaxDiff s tx).maxDiff = max s.maxDiff (subInt tx.Yolo2xGasUsed tx.MainGasUsed) := by
  unfold updateMaxDiff
  split_ifs with h
  · simp only [gt_iff_lt] at h
    simp [max_eq_right (le_of_lt h)]
  · simp only [gt_iff_lt, not_lt] at h
    simp [max_eq_left h]

theorem updateMaxDiff_of_gt (s : Stats) (tx : txInfo)
    (h : subInt tx.Yolo2xGasUsed tx.MainGasUsed > s.maxDiff) :
    updateMaxDiff s tx =
      { s with maxDiff := subInt tx.Yolo2xGasUsed tx.MainGasUsed,
               maxDiffBase := tx.MainGasUsed, maxDiffYolo := tx.Yolo2xGasUsed } := by
  unfold updateMaxDiff
  rw [if_pos h]

theorem updateMaxDiff_of_le (s : Stats) (tx : txInfo)
    (h : subInt tx.Yolo2xGasUsed tx.MainGasUsed ≤ s.maxDiff) : updateMaxDiff s tx = s := by
  unfold updateMaxDiff
  rw [if_neg (not_lt.2 h)]

theorem updateMaxDiff_triple_gt (s : Stats) (tx : txInfo)
    (h : subInt tx.Yolo2xGasUsed tx.MainGasUsed > s.maxDiff) :
    (updateMaxDiff s tx).maxDiff = subInt tx.Yolo2xGasUsed tx.MainGasUsed ∧
    (updateMaxDiff s tx).maxDiffBase = tx.MainGasUsed ∧
    (updateMaxDiff s tx).maxDiffYolo = tx.Yolo2xGasUsed := by
  rw [updateMaxDiff_of_gt s tx h]
  exact ⟨rfl, rfl, rfl⟩

theorem updateMaxDiff_triple_le (s : Stats) (tx : txInfo)
    (h : subInt tx.Yolo2xGasUsed tx.MainGasUsed ≤ s.maxDiff) :
    (updateMaxDiff s tx).maxDiff = s.maxDiff ∧
    (updateMaxDiff s tx).maxDiffBase = s.maxDiffBase ∧
    (updateMaxDiff s tx).maxDiffYolo = s.maxDiffYolo := by
  rw [updateMaxDiff_of_le s tx h]
  exact ⟨rfl, rfl, rfl⟩

/-- What the gas and category assignments leave alone. -/
theorem countGas_frame (s : Stats) (tx : txInfo) (b : Bool) :
    (countGas s tx b).numBlocks = s.numBlocks ∧
    (countGas s tx b).numTxs = s.numTxs ∧
    (countGas s tx b).emptyBlocks = s.emptyBlocks ∧
    (countGas s tx b).mainError = s.mainError ∧
    (countGas s tx b).broken = s.broken ∧
    (countGas s tx b).gasUsedYolo2x = s.gasUsedYolo2x ∧
    (countGas s tx b).maxDiff = s.maxDiff ∧
    (countGas s tx b).maxDiffBase = s.maxDiffBase ∧
    (countGas s tx b).maxDiffYolo = s.maxDiffYolo := by
  cases b <;> simp [countGas]

/-- What the gas and category assignments add. -/
theorem countGas_values (s : Stats) (tx : txInfo) (b : Bool) :
    (countGas s tx b).gasUsedMain = addInt s.gasUsedMain tx.MainGasUsed ∧
    (countGas s tx b).gasUsedYolo =
      addInt s.gasUsedYolo (if b = true then tx.YoloGasUsed else tx.Yolo2xGasUsed) ∧
    (countGas s tx b).unaffected = s.unaffected + (if b = true then 1 else 0) ∧
    (countGas s tx b).salvageable = s.salvageable + (if b = true then 0 else 1) := by
  cases b <;> simp [countGas]

theorem stepStats_sum (fp : Bool) (s : Stats) (tx : txInfo) :
    (stepStats fp s tx).unaffected + (stepStats fp s tx).salvageable +
        (stepStats fp s tx).broken =
      s.unaffected + s.salvageable + s.broken + 1 := by
  rw [stepStats_kinds]
  split_ifs
  · simp only []
    omega
  · simp only [updateMaxDiff_frame, countGas_frame, countGas_values]
    split_ifs <;> omega
  · simp only []
    omega

theorem stepStats_maxDiff_le (fp : Bool) (s : Stats) (tx : txInfo) :
    s.maxDiff ≤ (stepStats fp s tx).maxDiff := by
  rw [stepStats_kinds]
  split_ifs
  · exact le_refl _
  · rw [updateMaxDiff_maxDiff, (countGas_frame s tx _).2.2.2.2.2.2.1]
    exact le_max_left _ _
  · exact le_refl _

theorem stepStats_mainError_le (fp : Bool) (s : Stats) (tx : txInfo)
    (h : s.mainError ≤ s.unaffected) :
    (stepStats fp s tx).mainError ≤ (stepStats fp s tx).unaffected := by
  rw [stepStats_kinds]
  split_ifs
  · simp only []
    omega
  · simp only [updateMaxDiff_frame, countGas_frame, countGas_values]
    split_ifs <;> omega
  · exact h

theorem stepStats_frame (fp : Bool) (s : Stats) (tx : txInfo) :
    (stepStats fp s tx).numBlocks = s.numBlocks ∧
    (stepStats fp s tx).numTxs = s.numTxs ∧
    (stepStats fp s tx).emptyBlocks = s.emptyBlocks ∧
    (stepStats fp s tx).gasUsedYolo2x = s.gasUsedYolo2x := by
  rw [stepStats_kinds]
  split_ifs
  · exact ⟨rfl, rfl, rfl, rfl⟩
  · simp only [updateMaxDiff_frame, countGas_frame, and_self]
  · exact ⟨rfl, rfl, rfl, rfl⟩

/-! ## Whole runs -/

theorem stepStats_trace (fp : Bool) (s : Stats) (tx : txInfo) :
    ((stepStats fp s tx).maxDiff = s.maxDiff ∧
      (stepStats fp s tx).maxDiffBase = s.maxDiffBase ∧
      (stepStats fp s tx).maxDiffYolo = s.maxDiffYolo) ∨
    (s.maxDiff < (stepStats fp s tx).maxDiff ∧ bookkept fp tx = true ∧
      subInt tx.Yolo2xGasUsed tx.MainGasUsed = (stepStats fp s tx).maxDiff ∧
      (stepStats fp s tx).maxDiffBase = tx.MainGasUsed ∧
      (stepStats fp s tx).maxDiffYolo = tx.Yolo2xGasUsed) := by
  rw [stepStats_kinds]
  by_cases hm : tx.MainError = true
  · rw [if_pos hm]
    exact Or.inl ⟨rfl, rfl, rfl⟩
  · rw [if_neg hm]
    by_cases hb : bookkept fp tx = true
    · rw [if_pos hb]
      obtain ⟨_, _, _, _, _, _, e1, e2, e3⟩ := countGas_frame s tx (viaYolo tx)
      by_cases hd : subInt tx.Yolo2xGasUsed tx.MainGasUsed > s.maxDiff
      · right
        obtain ⟨h1, h2, h3⟩ := updateMaxDiff_triple_gt (countGas s tx (viaYolo tx)) tx
          (by rw [e1]; exact hd)
        exact ⟨by rw [h1]; exact hd, hb, h1.symm, h2, h3⟩
      · left
        obtain ⟨h1, h2, h3⟩ := updateMaxDiff_triple_le (countGas s tx (viaYolo tx)) tx
          (by rw [e1]; exact not_lt.1 hd)
        exact ⟨h1.trans e1, h2.trans e2, h3.trans e3⟩
    · rw [if_neg hb]
      exact Or.inl ⟨rfl, rfl, rfl⟩

/-- Where the remembered pair of a run comes from: it is the starting pair,
or the pair of a bookkept record whose delta is the final `maxDiff`. -/
theorem foldl_trace (fp : Bool) (l : List txInfo) (s : Stats) :
    ((l.foldl (stepStats fp) s).maxDiff = s.maxDiff ∧
      (l.foldl (stepStats fp) s).maxDiffBase = s.maxDiffBase ∧
      (l.foldl (stepStats fp) s).maxDiffYolo = s.maxDiffYolo) ∨
    (s.maxDiff < (l.foldl (stepStats fp) s).maxDiff ∧
      ∃ tx ∈ l, bookkept fp tx = true ∧
        subInt tx.Yolo2xGasUsed tx.MainGasUsed = (l.foldl (stepStats fp) s).maxDiff ∧
        (l.foldl (stepStats fp) s).maxDiffBase = tx.MainGasUsed ∧
        (l.foldl (stepStats fp) s).maxDiffYolo = tx.Yolo2xGasUsed) := by
  induction l generalizing s with
  | nil => exact Or.inl ⟨rfl, rfl, rfl⟩
  | cons x rest ih =>
    simp only [List.foldl_cons]
    rcases ih (stepStats fp s x) with ⟨e1, e2, e3⟩ | ⟨lt, tx, hmem, hb, hd, hB, hY⟩
    · rcases stepStats_trace fp s x with ⟨f1, f2, f3⟩ | ⟨lt, hb, hd, hB, hY⟩
      · exact Or.inl ⟨e1.trans f1, e2.trans f2, e3.trans f3⟩
      · exact Or.inr ⟨by rw [e1]; exact lt, x, List.mem_cons_self _ _, hb, by rw [e1]; exact hd,
          e2.trans hB, e3.trans hY⟩
    · have hle : s.maxDiff ≤ (stepStats fp s x).maxDiff := stepStats_maxDiff_le fp s x
      exact Or.inr ⟨lt_of_le_of_lt hle lt, tx, List.mem_cons_of_mem _ hmem, hb, hd, hB, hY⟩

theorem foldl_maxDiff_le (fp : Bool) (l : List txInfo) (s : Stats) :
    s.maxDiff ≤ (l.foldl (stepStats fp) s).maxDiff := by
  induction l generalizing s with
  | nil => exact le_refl _
  | cons x rest ih =>
    exact le_trans (stepStats_maxDiff_le fp s x) (ih (stepStats fp s x))

theorem foldl_sum (fp : Bool) (l : List txInfo) (s : Stats) :
    (l.foldl (stepStats fp) s).unaffected + (l.foldl (stepStats fp) s).salvageable +
        (l.foldl (stepStats fp) s).broken =
      s.unaffected + s.salvageable + s.broken + l.length := by
  induction l generalizing s with
  | nil => simp
  | cons x rest ih =>
    simp only [List.foldl_cons, List.length_cons, Nat.cast_add, Nat.cast_one]
    rw [ih (stepStats fp s x), stepStats_sum]
    omega

theorem foldl_mainError_le (fp : Bool) (l : List txInfo) (s : Stats)
    (h : s.mainError ≤ s.unaffected) :
    (l.foldl (stepStats fp) s).mainError ≤ (l.foldl (stepStats fp) s).unaffected := by
  induction l generalizing s with
  | nil => exact h
  | cons x rest ih => exact ih (stepStats fp s x) (stepStats_mainError_le fp s x h)

theorem foldl_frame (fp : Bool) (l : List txInfo) (s : Stats) :
    (l.foldl (stepStats fp) s).numBlocks = s.numBlocks ∧
    (l.foldl (stepStats fp) s).numTxs = s.numTxs ∧
    (l.foldl (stepStats fp) s).emptyBlocks = s.emptyBlocks ∧
    (l.foldl (stepStats fp) s).gasUsedYolo2x = s.gasUsedYolo2x := by
  induction l generalizing s with
  | nil => exact ⟨rfl, rfl, rfl, rfl⟩
  | cons x rest ih =>
    obtain ⟨a1, a2, a3, a4⟩ := ih (stepStats fp s x)
    obtain ⟨b1, b2, b3, b4⟩ := stepStats_frame fp s x
    exact ⟨a1.trans b1, a2.trans b2, a3.trans b3, a4.trans b4⟩

/-! ## The counters do not depend on the order of the records -/

theorem counters_eq_iff (s t : Stats) :
    counters s = counters t ↔
      s.numBlocks = t.numBlocks ∧ s.numTxs = t.numTxs ∧ s.emptyBlocks = t.emptyBlocks ∧
      s.unaffected = t.unaffected ∧ s.mainError = t.mainError ∧
      s.salvageable = t.salvageable ∧ s.broken = t.broken ∧
      s.gasUsedMain = t.gasUsedMain ∧ s.gasUsedYolo = t.gasUsedYolo ∧
      s.gasUsedYolo2x = t.gasUsedYolo2x ∧ s.maxDiff = t.maxDiff := by
  cases s
  cases t
  simp [counters]

theorem counters_stepStats (fp : Bool) (s t : Stats) (tx : txInfo)
    (h : counters s = counters t) :
    counters (stepStats fp s tx) = counters (stepStats fp t tx) := by
  rw [counters_eq_iff] at h ⊢
  obtain ⟨h1, h2, h3, h4, h5, h6, h7, h8, h9, h10, h11⟩ := h
  rw [stepStats_kinds, stepStats_kinds]
  split_ifs
  · simp only [h1, h2, h3, h4, h5, h6, h7, h8, h9, h10, h11, and_self]
  · simp only [updateMaxDiff_frame, updateMaxDiff_maxDiff, countGas_frame, countGas_values,
      h1, h2, h3, h4, h5, h6, h7, h8, h9, h10, h11, and_self]
  · simp only [h1, h2, h3, h4, h5, h6, h7, h8, h9, h10, h11, and_self]

theorem counters_foldl (fp : Bool) (l : List txInfo) (s t : Stats)
    (h : counters s = counters t) :
    counters (l.foldl (stepStats fp) s) = counters (l.foldl (stepStats fp) t) := by
  induction l generalizing s t with
  | nil => exact h
  | cons x rest ih => exact ih _ _ (counters_stepStats fp s t x h)

theorem counters_swap (fp : Bool) (s : Stats) (x y : txInfo) :
    counters (stepStats fp (stepStats fp s x) y) =
      counters (stepStats fp (stepStats fp s y) x) := by
  rw [counters_eq_iff]
  simp only [stepStats_kinds]
  split_ifs <;>
    simp only [updateMaxDiff_frame, updateMaxDiff_maxDiff, countGas_frame, countGas_values,
      max_assoc, max_comm, max_left_comm, add_assoc, add_comm, add_left_comm, and_self,
      addInt_right_comm s.gasUsedMain x.MainGasUsed y.MainGasUsed,
      addInt_right_comm s.gasUsedYolo
        (if viaYolo x = true then x.YoloGasUsed else x.Yolo2xGasUsed)
        (if viaYolo y = true then y.YoloGasUsed else y.Yolo2xGasUsed)]

theorem counters_perm (fp : Bool) (l1 l2 : List txInfo) (hp : l1.Perm l2) (s t : Stats)
    (h : counters s = counters t) :
    counters (l1.foldl (stepStats fp) s) = counters (l2.foldl (stepStats fp) t) := by
  induction hp generalizing s t with
  | nil => exact h
  | cons x _ ih => exact ih _ _ (counters_stepStats fp s t x h)
  | swap x y l =>
    simp only [List.foldl_cons]
    exact (counters_foldl fp l _ _ (counters_swap fp s y x)).trans
      (counters_foldl fp l _ _
        (counters_stepStats fp _ _ y (counters_stepStats fp s t x h)))
  | trans _ _ ih1 ih2 => exact (ih1 s s rfl).trans (ih2 s t h)

theorem eq_of_mem_of_length_le_one {α : Type} (l : List α) (a b : α) (h : l.length ≤ 1)
    (ha : a ∈ l) (hb : b ∈ l) : a = b := by
  match l, h, ha, hb with
  | [c], _, ha, hb =>
    rw [List.mem_singleton] at ha hb
    rw [ha, hb]
  | _ :: _ :: _, h, _, _ => simp at h

/-! ## The loader -/

/-- A load that succeeds leaves the analysis fields of the accumulator alone
and counts in `numTxs` exactly the records it appends. -/
theorem parseEntries_ok (w : World) (names : List String) (data : List txInfo) (stats : Stats)
    (out : List txInfo) (ls : Stats)
    (h : parseEntries w names data stats = { data := out, stats := some ls, err := none }) :
    ls.unaffected = stats.unaffected ∧ ls.mainError = stats.mainError ∧
    ls.salvageable = stats.salvageable ∧ ls.broken = stats.broken ∧
    ls.numTxs + data.length = stats.numTxs + out.length := by
  induction names generalizing data stats with
  | nil =>
    simp only [parseEntries, Loaded.mk.injEq, Option.some.injEq, and_true] at h
    obtain ⟨h1, h2⟩ := h
    subst h1 h2
    exact ⟨rfl, rfl, rfl, rfl, rfl⟩
  | cons name rest ih =>
    rw [parseEntries] at h
    split_ifs at h with hp
    · exact ih data stats h
    · cases hr : w.readFile ("./rawdata/" ++ name) with
      | error e => simp [hr] at h
      | ok byts =>
        cases hu : w.unmarshal byts with
        | error e => simp [hr, hu] at h
        | ok blockdata =>
          simp only [hr, hu] at h
          obtain ⟨a1, a2, a3, a4, a5⟩ := ih _ _ h
          simp only [apply_ite Stats.unaffected, apply_ite Stats.mainError,
            apply_ite Stats.salvageable, apply_ite Stats.broken, apply_ite Stats.numTxs,
            ite_self, List.length_append, List.length_map, Nat.cast_add] at a1 a2 a3 a4 a5
          exact ⟨a1, a2, a3, a4, by omega⟩

/-- The accumulator `parseFiles` returns has no record classified yet, and
its `numTxs` is the length of the returned slice. -/
theorem parseFiles_ok (w : World) (out : List txInfo) (ls : Stats)
    (h : parseFiles w = { data := out, stats := some ls, err := none }) :
    ls.unaffected = 0 ∧ ls.mainError = 0 ∧ ls.salvageable = 0 ∧ ls.broken = 0 ∧
    ls.numTxs = out.length := by
  unfold parseFiles at h
  cases hd : w.readDir "./rawdata/" with
  | error e => simp [hd] at h
  | ok finfo =>
    simp only [hd] at h
    obtain ⟨a1, a2, a3, a4, a5⟩ := parseEntries_ok w finfo [] {} out ls h
    refine ⟨a1, a2, a3, a4, ?_⟩
    simp only [List.length_nil, Nat.cast_zero, add_zero] at a5
    rw [a5]
    simp

/-! ## The claims -/

/-- C1: every record lands in exactly one of the three categories.  After
`analyseTransactions` has run on what `parseFiles` loaded without error, with
either value of the leniency flag, `unaffected + salvageable + broken` equals
`numTxs`; and from any starting `Stats` a run over `txs` raises that sum by
exactly `len(txs)`. -/
theorem C1_categories_partition (w : World) (out : List txInfo) (ls : Stats) (fp : Bool)
    (txs : List txInfo) (s : Stats)
    (hload : parseFiles w = { data := out, stats := some ls, err := none }) :
    ((analyseTransactions out ls fp).stats.unaffected +
        (analyseTransactions out ls fp).stats.salvageable +
        (analyseTransactions out ls fp).stats.broken =
      (analyseTransactions out ls fp).stats.numTxs) ∧
    ((analyseTransactions txs s fp).stats.unaffected +
        (analyseTransactions txs s fp).stats.salvageable +
        (analyseTransactions txs s fp).stats.broken =
      s.unaffected + s.salvageable + s.broken + txs.length) := by
  have gen : ∀ (l : List txInfo) (t : Stats),
      (analyseTransactions l t fp).stats.unaffected +
          (analyseTransactions l t fp).stats.salvageable +
          (analyseTransactions l t fp).stats.broken =
        t.unaffected + t.salvageable + t.broken + l.length := by
    intro l t
    have e : (analyseTransactions l t fp).stats = l.foldl (stepStats fp) t :=
      statsAfter_eq_foldl l t fp
    rw [e]
    exact foldl_sum fp l t
  refine ⟨?_, gen txs s⟩
  obtain ⟨a1, _, a3, a4, a5⟩ := parseFiles_ok w out ls hload
  have e : (analyseTransactions out ls fp).stats = out.foldl (stepStats fp) ls :=
    statsAfter_eq_foldl out ls fp
  rw [gen out ls, e, (foldl_frame fp out ls).2.1, a1, a3, a4, a5]
  simp

/-- C1 on a directory with two block files and a stray entry: three records
are loaded and the three categories add up to three. -/
theorem C1_categories_partition_witness :
    parseFiles demoWorld =
      { data := (parseFiles demoWorld).data, stats := some { numBlocks := 2, numTxs := 3 },
        err := none } ∧
    ((analyseTransactions (parseFiles demoWorld).data { numBlocks := 2, numTxs := 3 }
          true).stats.unaffected +
        (analyseTransactions (parseFiles demoWorld).data { numBlocks := 2, numTxs := 3 }
          true).stats.salvageable +
        (analyseTransactions (parseFiles demoWorld).data { numBlocks := 2, numTxs := 3 }
          true).stats.broken =
      (analyseTransactions (parseFiles demoWorld).data { numBlocks := 2, numTxs := 3 }
          true).stats.numTxs) :=
  ⟨rfl, (C1_categories_partition demoWorld (parseFiles demoWorld).data
    { numBlocks := 2, numTxs := 3 } true [] {} rfl).1⟩

/-- C2: a record with `MainError = true` adds one to `unaffected` and one to
`mainError` and changes nothing else, whatever its other fields, the
leniency flag and the records processed before it; from a fresh `Stats`
(Scenario A) the result is `unaffected = 1`, `mainError = 1`, `broken = 0` and
both gas sums `0`. -/
theorem C2_main_error_is_unaffected (pre : List txInfo) (tx : txInfo) (s : Stats)
    (fp : Bool) (h : tx.MainError = true) :
    ((statsAfter (pre ++ [tx]) s fp).unaffected = (statsAfter pre s fp).unaffected + 1 ∧
     (statsAfter (pre ++ [tx]) s fp).mainError = (statsAfter pre s fp).mainError + 1 ∧
     (statsAfter (pre ++ [tx]) s fp).salvageable = (statsAfter pre s fp).salvageable ∧
     (statsAfter (pre ++ [tx]) s fp).broken = (statsAfter pre s fp).broken ∧
     (statsAfter (pre ++ [tx]) s fp).gasUsedMain = (statsAfter pre s fp).gasUsedMain ∧
     (statsAfter (pre ++ [tx]) s fp).gasUsedYolo = (statsAfter pre s fp).gasUsedYolo ∧
     (statsAfter (pre ++ [tx]) s fp).maxDiff = (statsAfter pre s fp).maxDiff ∧
     (statsAfter (pre ++ [tx]) s fp).maxDiffBase = (statsAfter pre s fp).maxDiffBase ∧
     (statsAfter (pre ++ [tx]) s fp).maxDiffYolo = (statsAfter pre s fp).maxDiffYolo) ∧
    ((analyseTransactions [tx] {} fp).stats.unaffected = 1 ∧
     (analyseTransactions [tx] {} fp).stats.mainError = 1 ∧
     (analyseTransactions [tx] {} fp).stats.broken = 0 ∧
     (analyseTransactions [tx] {} fp).stats.gasUsedMain = 0 ∧
     (analyseTransactions [tx] {} fp).stats.gasUsedYolo = 0) := by
  constructor
  · rw [statsAfter_snoc]
    generalize statsAfter pre s fp = a
    simp [stepStats, analyseTx, h]
  · simp [analyseTransactions, analyseTx, h]

/-- Scenario A run through C2. -/
theorem C2_main_error_is_unaffected_witness :
    scenarioA.MainError = true ∧
    (analyseTransactions [scenarioA] {} true).stats.unaffected = 1 ∧
    (analyseTransactions [scenarioA] {} true).stats.mainError = 1 ∧
    (analyseTransactions [scenarioA] {} true).stats.broken = 0 ∧
    (analyseTransactions [scenarioA] {} true).stats.gasUsedMain = 0 ∧
    (analyseTransactions [scenarioA] {} true).stats.gasUsedYolo = 0 :=
  ⟨rfl, (C2_main_error_is_unaffected [] scenarioA {} true rfl).2⟩

/-- C3: for a record with `MainError = false` the exact-match rules apply in
order.  An exact yolo match (`YoloError = false`, `MainSteps = YoloSteps`)
counts the record as unaffected and adds `MainGasUsed` and `YoloGasUsed` to
the gas sums, also when yolo2x matches exactly too; failing that, an exact
yolo2x match counts it as salvageable and adds `MainGasUsed` and
`Yolo2xGasUsed`, also when the lenient yolo condition holds.  `mainError` and
`broken` do not change in either case.  The additions are Go's `+=` on `int`:
the integer sum whenever that fits, its wrap-around otherwise. -/
theorem C3_exact_match_rules (pre : List txInfo) (tx : txInfo) (s : Stats) (fp : Bool)
    (hm : tx.MainError = false) :
    (tx.YoloError = false ∧ tx.MainSteps = tx.YoloSteps →
      (statsAfter (pre ++ [tx]) s fp).unaffected = (statsAfter pre s fp).unaffected + 1 ∧
      (statsAfter (pre ++ [tx]) s fp).salvageable = (statsAfter pre s fp).salvageable ∧
      (statsAfter (pre ++ [tx]) s fp).gasUsedMain =
        addInt (statsAfter pre s fp).gasUsedMain tx.MainGasUsed ∧
      (statsAfter (pre ++ [tx]) s fp).gasUsedYolo =
        addInt (statsAfter pre s fp).gasUsedYolo tx.YoloGasUsed ∧
      (fitsInt ((statsAfter pre s fp).gasUsedMain + tx.MainGasUsed) →
        (statsAfter (pre ++ [tx]) s fp).gasUsedMain =
          (statsAfter pre s fp).gasUsedMain + tx.MainGasUsed) ∧
      (fitsInt ((statsAfter pre s fp).gasUsedYolo + tx.YoloGasUsed) →
        (statsAfter (pre ++ [tx]) s fp).gasUsedYolo =
          (statsAfter pre s fp).gasUsedYolo + tx.YoloGasUsed) ∧
      (statsAfter (pre ++ [tx]) s fp).mainError = (statsAfter pre s fp).mainError ∧
      (statsAfter (pre ++ [tx]) s fp).broken = (statsAfter pre s fp).broken) ∧
    (¬ (tx.YoloError = false ∧ tx.MainSteps = tx.YoloSteps) →
      tx.Yolo2xError = false ∧ tx.MainSteps = tx.Yolo2xSteps →
      (statsAfter (pre ++ [tx]) s fp).salvageable = (statsAfter pre s fp).salvageable + 1 ∧
      (statsAfter (pre ++ [tx]) s fp).unaffected = (statsAfter pre s fp).unaffected ∧
      (statsAfter (pre ++ [tx]) s fp).gasUsedMain =
        addInt (statsAfter pre s fp).gasUsedMain tx.MainGasUsed ∧
      (statsAfter (pre ++ [tx]) s fp).gasUsedYolo =
        addInt (statsAfter pre s fp).gasUsedYolo tx.Yolo2xGasUsed ∧
      (fitsInt ((statsAfter pre s fp).gasUsedMain + tx.MainGasUsed) →
        (statsAfter (pre ++ [tx]) s fp).gasUsedMain =
          (statsAfter pre s fp).gasUsedMain + tx.MainGasUsed) ∧
      (fitsInt ((statsAfter pre s fp).gasUsedYolo + tx.Yolo2xGasUsed) →
        (statsAfter (pre ++ [tx]) s fp).gasUsedYolo =
          (statsAfter pre s fp).gasUsedYolo + tx.Yolo2xGasUsed) ∧
      (statsAfter (pre ++ [tx]) s fp).mainError = (statsAfter pre s fp).mainError ∧
      (statsAfter (pre ++ [tx]) s fp).broken = (statsAfter pre s fp).broken) := by
  rw [statsAfter_snoc]
  generalize statsAfter pre s fp = a
  refine ⟨?_, ?_⟩
  · intro h
    have c1 : exactYolo tx = true := (exactYolo_iff tx).2 h
    simp only [stepStats_branches, hm, c1, Bool.false_eq_true, if_false, if_true,
      updateMaxDiff_frame]
    refine ⟨?_, ?_, ?_, ?_, ?_, ?_, ?_, ?_⟩ <;>
      first
        | trivial
        | rfl
        | (intro hf; exact addInt_of_fits _ _ hf)
  · intro h0 h
    have c1 : exactYolo tx = false := exactYolo_eq_false tx h0
    have c2 : exactYolo2x tx = true := (exactYolo2x_iff tx).2 h
    simp only [stepStats_branches, hm, c1, c2, Bool.false_eq_true, if_false, if_true,
      updateMaxDiff_frame]
    refine ⟨?_, ?_, ?_, ?_, ?_, ?_, ?_, ?_⟩ <;>
      first
        | trivial
        | rfl
        | (intro hf; exact addInt_of_fits _ _ hf)

/-- C3 at Scenario B (unaffected, sums `100` and `90`), at a record that
matches only yolo2x although yolo would pass leniently, and at a second record
of `2^63 - 1` gas, where the sum wraps to `-2` as it does in Go. -/
theorem C3_exact_match_rules_witness :
    ((statsAfter ([] ++ [scenarioB]) {} true).unaffected = 1 ∧
      (statsAfter ([] ++ [scenarioB]) {} true).gasUsedMain = 100 ∧
      (statsAfter ([] ++ [scenarioB]) {} true).gasUsedYolo = 90) ∧
    (statsAfter ([] ++ [lenientAndExact2x]) {} true).salvageable = 1 ∧
    (statsAfter ([maxGasTx] ++ [maxGasTx]) {} true).gasUsedMain = -2 :=
  ⟨⟨((C3_exact_match_rules [] scenarioB {} true rfl).1 ⟨rfl, rfl⟩).1.trans (by decide),
    ((C3_exact_match_rules [] scenarioB {} true rfl).1 ⟨rfl, rfl⟩).2.2.2.2.1 (by decide),
    ((C3_exact_match_rules [] scenarioB {} true rfl).1 ⟨rfl, rfl⟩).2.2.2.2.2.1 (by decide)⟩,
   ((C3_exact_match_rules [] lenientAndExact2x {} true rfl).2 (by decide) ⟨rfl, rfl⟩).1,
   ((C3_exact_match_rules [maxGasTx] maxGasTx {} true rfl).1 ⟨rfl, rfl⟩).2.2.1.trans
     (by decide)⟩

/-- C4: for a record with `MainError = false` that matches neither exact
rule.  With `removeFP = true`: if `YoloError = false` and
`MainSteps <= YoloSteps` it is counted unaffected and `MainGasUsed`,
`YoloGasUsed` are added to the gas sums; otherwise, if `Yolo2xError = false`
and `MainSteps <= Yolo2xSteps`, it is counted salvageable and `MainGasUsed`,
`Yolo2xGasUsed` are added.  With `removeFP = false` every such record is
counted broken.  The additions are Go's `+=` on `int`: the integer sum
whenever that fits, its wrap-around otherwise. -/
theorem C4_lenient_rules (pre : List txInfo) (tx : txInfo) (s : Stats)
    (hm : tx.MainError = false)
    (hy : ¬ (tx.YoloError = false ∧ tx.MainSteps = tx.YoloSteps))
    (hy2 : ¬ (tx.Yolo2xError = false ∧ tx.MainSteps = tx.Yolo2xSteps)) :
    (tx.YoloError = false ∧ tx.MainSteps ≤ tx.YoloSteps →
      (statsAfter (pre ++ [tx]) s true).unaffected = (statsAfter pre s true).unaffected + 1 ∧
      (statsAfter (pre ++ [tx]) s true).salvageable = (statsAfter pre s true).salvageable ∧
      (statsAfter (pre ++ [tx]) s true).broken = (statsAfter pre s true).broken ∧
      (statsAfter (pre ++ [tx]) s true).gasUsedMain =
        addInt (statsAfter pre s true).gasUsedMain tx.MainGasUsed ∧
      (statsAfter (pre ++ [tx]) s true).gasUsedYolo =
        addInt (statsAfter pre s true).gasUsedYolo tx.YoloGasUsed ∧
      (fitsInt ((statsAfter pre s true).gasUsedMain + tx.MainGasUsed) →
        (statsAfter (pre ++ [tx]) s true).gasUsedMain =
          (statsAfter pre s true).gasUsedMain + tx.MainGasUsed) ∧
      (fitsInt ((statsAfter pre s true).gasUsedYolo + tx.YoloGasUsed) →
        (statsAfter (pre ++ [tx]) s true).gasUsedYolo =
          (statsAfter pre s true).gasUsedYolo + tx.YoloGasUsed)) ∧
    (¬ (tx.YoloError = false ∧ tx.MainSteps ≤ tx.YoloSteps) →
      tx.Yolo2xError = false ∧ tx.MainSteps ≤ tx.Yolo2xSteps →
      (statsAfter (pre ++ [tx]) s true).salvageable = (statsAfter pre s true).salvageable + 1 ∧
      (statsAfter (pre ++ [tx]) s true).unaffected = (statsAfter pre s true).unaffected ∧
      (statsAfter (pre ++ [tx]) s true).broken = (statsAfter pre s true).broken ∧
      (statsAfter (pre ++ [tx]) s true).gasUsedMain =
        addInt (statsAfter pre s true).gasUsedMain tx.MainGasUsed ∧
      (statsAfter (pre ++ [tx]) s true).gasUsedYolo =
        addInt (statsAfter pre s true).gasUsedYolo tx.Yolo2xGasUsed ∧
      (fitsInt ((statsAfter pre s true).gasUsedMain + tx.MainGasUsed) →
        (statsAfter (pre ++ [tx]) s true).gasUsedMain =
          (statsAfter pre s true).gasUsedMain + tx.MainGasUsed) ∧
      (fitsInt ((statsAfter pre s true).gasUsedYolo + tx.Yolo2xGasUsed) →
        (statsAfter (pre ++ [tx]) s true).gasUsedYolo =
          (statsAfter pre s true).gasUsedYolo + tx.Yolo2xGasUsed)) ∧
    ((statsAfter (pre ++ [tx]) s false).broken = (statsAfter pre s false).broken + 1 ∧
      (statsAfter (pre ++ [tx]) s false).unaffected = (statsAfter pre s false).unaffected ∧
      (statsAfter (pre ++ [tx]) s false).salvageable = (statsAfter pre s false).salvageable ∧
      (statsAfter (pre ++ [tx]) s false).gasUsedMain = (statsAfter pre s false).gasUsedMain ∧
      (statsAfter (pre ++ [tx]) s false).gasUsedYolo = (statsAfter pre s false).gasUsedYolo) := by
  rw [statsAfter_snoc, statsAfter_snoc]
  generalize statsAfter pre s true = a
  generalize statsAfter pre s false = b
  have c1 : exactYolo tx = false := exactYolo_eq_false tx hy
  have c2 : exactYolo2x tx = false := exactYolo2x_eq_false tx hy2
  refine ⟨?_, ?_, ?_⟩
  · intro h
    have c3 : lenientYolo tx = true := (lenientYolo_iff tx).2 h
    simp only [stepStats_branches, hm, c1, c2, c3, Bool.false_eq_true, Bool.and_self,
      if_false, if_true, updateMaxDiff_frame]
    refine ⟨?_, ?_, ?_, ?_, ?_, ?_, ?_⟩ <;>
      first
        | trivial
        | rfl
        | (intro hf; exact addInt_of_fits _ _ hf)
  · intro h0 h
    have c3 : lenientYolo tx = false := lenientYolo_eq_false tx h0
    have c4 : lenientYolo2x tx = true := (lenientYolo2x_iff tx).2 h
    simp only [stepStats_branches, hm, c1, c2, c3, c4, Bool.false_eq_true, Bool.and_self,
      Bool.and_false, if_false, if_true, updateMaxDiff_frame]
    refine ⟨?_, ?_, ?_, ?_, ?_, ?_, ?_⟩ <;>
      first
        | trivial
        | rfl
        | (intro hf; exact addInt_of_fits _ _ hf)
  · simp [stepStats_branches, hm, c1, c2]

/-- Scenario C run through C4: unaffected under `removeFP = true`, broken
under `removeFP = false`; and a second lenient record of `2^63 - 1` gas, where
the sum wraps to `-2` as it does in Go. -/
theorem C4_lenient_rules_witness :
    (analyseTransactions [scenarioC] {} true).stats.unaffected = 1 ∧
    (analyseTransactions [scenarioC] {} false).stats.broken = 1 ∧
    (statsAfter ([lenientMaxGasTx] ++ [lenientMaxGasTx]) {} true).gasUsedMain = -2 :=
  ⟨((C4_lenient_rules [] scenarioC {} rfl (by decide) (by decide)).1 ⟨rfl, by decide⟩).1,
   (C4_lenient_rules [] scenarioC {} rfl (by decide) (by decide)).2.2.1,
   ((C4_lenient_rules [lenientMaxGasTx] lenientMaxGasTx {} rfl (by decide) (by decide)).1
      ⟨rfl, by decide⟩).2.2.2.1.trans (by decide)⟩

/-- C5: under `removeFP = true` a record is counted broken exactly when
`MainError = false`, (`YoloError = true` or `MainSteps > YoloSteps`) and
(`Yolo2xError = true` or `MainSteps > Yolo2xSteps`).  A broken record appends
exactly one chunk to standard output, the line of the `Printf` with its three
step counts, the yolo2x error flag, the block and the transaction hash, ending
in a newline; it adds one to `broken` and leaves every other field of the
accumulator as it was.  A record that is not broken prints nothing. -/
theorem C5_broken_iff (pre : List txInfo) (tx : txInfo) (s : Stats) :
    ((statsAfter (pre ++ [tx]) s true).broken = (statsAfter pre s true).broken + 1 ↔
      tx.MainError = false ∧ (tx.YoloError = true ∨ tx.MainSteps > tx.YoloSteps) ∧
        (tx.Yolo2xError = true ∨ tx.MainSteps > tx.Yolo2xSteps)) ∧
    ((statsAfter (pre ++ [tx]) s true).broken = (statsAfter pre s true).broken + 1 →
      (analyseTransactions (pre ++ [tx]) s true).stdout =
        (analyseTransactions pre s true).stdout ++
          ["tx txbase-steps: " ++ toString tx.MainSteps ++
            ", tx2929-steps: " ++ toString tx.YoloSteps ++
            ", tx2929b-steps: " ++ toString tx.Yolo2xSteps ++
            ", tx2929b-Error: " ++ (if tx.Yolo2xError = true then "true" else "false") ++
            ", block:" ++ tx.BlockHash ++
            ",  txHash: " ++ tx.TxHash ++ "\n"] ∧
      statsAfter (pre ++ [tx]) s true =
        { statsAfter pre s true with broken := (statsAfter pre s true).broken + 1 }) ∧
    (¬ (statsAfter (pre ++ [tx]) s true).broken = (statsAfter pre s true).broken + 1 →
      (analyseTransactions (pre ++ [tx]) s true).stdout =
        (analyseTransactions pre s true).stdout) := by
  have key : (statsAfter (pre ++ [tx]) s true).broken = (statsAfter pre s true).broken + 1 ↔
      tx.MainError = false ∧ bookkept true tx = false := by
    rw [statsAfter_snoc, stepStats_kinds]
    split_ifs <;> simp_all [updateMaxDiff_frame, countGas_frame]
  have cond : bookkept true tx = false ↔
      (tx.YoloError = true ∨ tx.MainSteps > tx.YoloSteps) ∧
        (tx.Yolo2xError = true ∨ tx.MainSteps > tx.Yolo2xSteps) ∨ tx.MainError = true := by
    simp only [bookkept, exactYolo, exactYolo2x, lenientYolo, lenientYolo2x]
    cases tx.MainError <;> cases tx.YoloError <;> cases tx.Yolo2xError <;> simp <;> omega
  have line : brokenLine tx =
      "tx txbase-steps: " ++ toString tx.MainSteps ++
        ", tx2929-steps: " ++ toString tx.YoloSteps ++
        ", tx2929b-steps: " ++ toString tx.Yolo2xSteps ++
        ", tx2929b-Error: " ++ (if tx.Yolo2xError = true then "true" else "false") ++
        ", block:" ++ tx.BlockHash ++
        ",  txHash: " ++ tx.TxHash ++ "\n" := by
    unfold brokenLine
    cases tx.Yolo2xError <;> rfl
  refine ⟨?_, ?_, ?_⟩
  · rw [key, cond]
    cases tx.MainError <;> simp
  · intro h
    obtain ⟨hm, hb⟩ := key.1 h
    rw [stdout_snoc, analyseTx_stdout, statsAfter_snoc, stepStats_kinds, ← line]
    simp [hm, hb]
  · intro h
    rw [key] at h
    rw [stdout_snoc, analyseTx_stdout]
    cases hm : tx.MainError with
    | true => simp
    | false =>
      cases hb : bookkept true tx with
      | true => simp
      | false => exact absurd ⟨hm, hb⟩ h

/-- C5 at the transaction the source quotes as broken under both variants:
one line with its step counts `18655`, `9053`, `18156`, the flag `true`, its
block and its hash, and `broken = 1` with nothing else touched.  The labels
are those of the `Printf`; the comment in the source quotes the line with the
labels `mainsteps`, `yolosteps`, `yolo2xsteps` and `yolo2Error`, which the
program does not print.  Scenario B, which is not broken, prints nothing. -/
theorem C5_broken_iff_witness :
    (analyseTransactions ([] ++ [stakeTx]) {} true).stdout =
      ["tx txbase-steps: 18655, tx2929-steps: 9053, tx2929b-steps: 18156, " ++
        "tx2929b-Error: true, block:block_11354984-0xccc7e971-analysis-223546762,  " ++
        "txHash: 0x4930308d13b9ac5b49214971412f115339e7e88480b420bb04b42631d49ad9a4\n"] ∧
    statsAfter ([] ++ [stakeTx]) {} true = { broken := 1 } ∧
    (analyseTransactions ([] ++ [scenarioB]) {} true).stdout = [] :=
  ⟨(((C5_broken_iff [] stakeTx {}).2.1
      ((C5_broken_iff [] stakeTx {}).1.2 ⟨rfl, Or.inr (by decide), Or.inl rfl⟩)).1).trans
      (by rfl),
   (((C5_broken_iff [] stakeTx {}).2.1
      ((C5_broken_iff [] stakeTx {}).1.2 ⟨rfl, Or.inr (by decide), Or.inl rfl⟩)).2).trans
      (by decide),
   ((C5_broken_iff [] scenarioB {}).2.2 (by decide)).trans (by decide)⟩

/-- C6: a record that takes one of the four bookkeeping branches updates the
max-delta tracker with `delta = Yolo2xGasUsed - MainGasUsed`, Go's `-` on
`int` (the integer difference whenever that fits): if `delta > maxDiff` then
`maxDiff = delta`, `maxDiffBase = MainGasUsed` and
`maxDiffYolo = Yolo2xGasUsed`; if `delta <= maxDiff` (a tie included) the
three fields keep their values. -/
theorem C6_max_delta_update (pre : List txInfo) (tx : txInfo) (s : Stats) (fp : Bool)
    (hb : bookkept fp tx = true) :
    (subInt tx.Yolo2xGasUsed tx.MainGasUsed > (statsAfter pre s fp).maxDiff →
      (statsAfter (pre ++ [tx]) s fp).maxDiff = subInt tx.Yolo2xGasUsed tx.MainGasUsed ∧
      (statsAfter (pre ++ [tx]) s fp).maxDiffBase = tx.MainGasUsed ∧
      (statsAfter (pre ++ [tx]) s fp).maxDiffYolo = tx.Yolo2xGasUsed) ∧
    (subInt tx.Yolo2xGasUsed tx.MainGasUsed ≤ (statsAfter pre s fp).maxDiff →
      (statsAfter (pre ++ [tx]) s fp).maxDiff = (statsAfter pre s fp).maxDiff ∧
      (statsAfter (pre ++ [tx]) s fp).maxDiffBase = (statsAfter pre s fp).maxDiffBase ∧
      (statsAfter (pre ++ [tx]) s fp).maxDiffYolo = (statsAfter pre s fp).maxDiffYolo) ∧
    (fitsInt (tx.Yolo2xGasUsed - tx.MainGasUsed) →
      subInt tx.Yolo2xGasUsed tx.MainGasUsed = tx.Yolo2xGasUsed - tx.MainGasUsed) := by
  have hm : tx.MainError = false := by
    cases h : tx.MainError
    · rfl
    · simp [bookkept, h] at hb
  rw [statsAfter_snoc, stepStats_kinds]
  generalize statsAfter pre s fp = a
  simp only [hm, hb, Bool.false_eq_true, if_false, if_true]
  obtain ⟨_, _, _, _, _, _, e1, e2, e3⟩ := countGas_frame a tx (viaYolo tx)
  refine ⟨fun h => updateMaxDiff_triple_gt _ _ (by rw [e1]; exact h), fun h => ?_,
    fun hf => subInt_of_fits _ _ hf⟩
  obtain ⟨f1, f2, f3⟩ := updateMaxDiff_triple_le (countGas a tx (viaYolo tx)) tx
    (by rw [e1]; exact h)
  exact ⟨f1.trans e1, f2.trans e2, f3.trans e3⟩

/-- C6 at a salvageable record with delta 30 (replaces a fresh tracker), at
Scenario B with delta -5 (leaves it alone), and at a record whose difference
`2^63 - 1 - (-2)` wraps to a negative `int` and so leaves the tracker alone,
as it does in Go. -/
theorem C6_max_delta_update_witness :
    ((statsAfter ([] ++ [salvageTx]) {} true).maxDiff = 30 ∧
      (statsAfter ([] ++ [salvageTx]) {} true).maxDiffBase = 100 ∧
      (statsAfter ([] ++ [salvageTx]) {} true).maxDiffYolo = 130) ∧
    ((statsAfter ([] ++ [scenarioB]) {} true).maxDiff = 0 ∧
      (statsAfter ([] ++ [scenarioB]) {} true).maxDiffBase = 0 ∧
      (statsAfter ([] ++ [scenarioB]) {} true).maxDiffYolo = 0) ∧
    ((statsAfter ([] ++ [wrapDeltaTx]) {} true).maxDiff = 0 ∧
      (statsAfter ([] ++ [wrapDeltaTx]) {} true).maxDiffBase = 0 ∧
      (statsAfter ([] ++ [wrapDeltaTx]) {} true).maxDiffYolo = 0) :=
  ⟨⟨((C6_max_delta_update [] salvageTx {} true rfl).1 (by decide)).1.trans (by decide),
    ((C6_max_delta_update [] salvageTx {} true rfl).1 (by decide)).2⟩,
   (C6_max_delta_update [] scenarioB {} true rfl).2.1 (by decide),
   (C6_max_delta_update [] wrapDeltaTx {} true rfl).2.1 (by decide)⟩

/-- C7 as stated fails on Scenario B: the record is unaffected by the exact
yolo match, its delta is `95 - 100 = -5`, and the run from a fresh `Stats`
ends with `maxDiff = 0`, not `-5`. -/
theorem C7_scenarioB_counterexample :
    scenarioB.MainError = false ∧ scenarioB.YoloError = false ∧
    scenarioB.MainSteps = scenarioB.YoloSteps ∧
    scenarioB.Yolo2xGasUsed - scenarioB.MainGasUsed = -5 ∧
    (analyseTransactions [scenarioB] {} true).stats.maxDiff = 0 ∧
    (analyseTransactions [scenarioB] {} true).stats.maxDiff ≠
      scenarioB.Yolo2xGasUsed - scenarioB.MainGasUsed := by
  decide

/-- C7, amended: a single record of Go `int`s with `MainError = false` that
matches yolo exactly, processed from a fresh `Stats`, gives `unaffected = 1`,
`gasUsedMain = MainGasUsed`, `gasUsedYolo = YoloGasUsed` and
`maxDiff = max(0, Yolo2xGasUsed - MainGasUsed)` with Go's `-` on `int`, the
integer difference whenever that fits: a delta that is not positive leaves
the tracker at its initial `0`. -/
theorem C7_exact_yolo_from_fresh (tx : txInfo) (fp : Bool)
    (hm : tx.MainError = false) (hy : tx.YoloError = false)
    (hs : tx.MainSteps = tx.YoloSteps)
    (hgm : fitsInt tx.MainGasUsed) (hgy : fitsInt tx.YoloGasUsed) :
    (analyseTransactions [tx] {} fp).stats.unaffected = 1 ∧
    (analyseTransactions [tx] {} fp).stats.gasUsedMain = tx.MainGasUsed ∧
    (analyseTransactions [tx] {} fp).stats.gasUsedYolo = tx.YoloGasUsed ∧
    (analyseTransactions [tx] {} fp).stats.maxDiff =
      max 0 (subInt tx.Yolo2xGasUsed tx.MainGasUsed) ∧
    (fitsInt (tx.Yolo2xGasUsed - tx.MainGasUsed) →
      (analyseTransactions [tx] {} fp).stats.maxDiff =
        max 0 (tx.Yolo2xGasUsed - tx.MainGasUsed)) := by
  have c1 : exactYolo tx = true := (exactYolo_iff tx).2 ⟨hy, hs⟩
  have e : (analyseTransactions [tx] {} fp).stats = stepStats fp {} tx :=
    statsAfter_snoc [] tx {} fp
  have g1 : addInt 0 tx.MainGasUsed = tx.MainGasUsed := by
    unfold addInt
    rw [zero_add]
    exact wrapInt_of_fits _ hgm
  have g2 : addInt 0 tx.YoloGasUsed = tx.YoloGasUsed := by
    unfold addInt
    rw [zero_add]
    exact wrapInt_of_fits _ hgy
  rw [e, stepStats_branches]
  simp only [hm, c1, Bool.false_eq_true, if_false, if_true, updateMaxDiff_frame,
    updateMaxDiff_maxDiff]
  refine ⟨by simp, g1, g2, by trivial, fun hf => ?_⟩
  rw [subInt_of_fits _ _ hf]

/-- Scenario B through the amended C7: `gasUsedMain = 100`,
`gasUsedYolo = 90` and `maxDiff = max(0, -5) = 0`. -/
theorem C7_exact_yolo_from_fresh_witness :
    (analyseTransactions [scenarioB] {} true).stats.unaffected = 1 ∧
    (analyseTransactions [scenarioB] {} true).stats.gasUsedMain = 100 ∧
    (analyseTransactions [scenarioB] {} true).stats.gasUsedYolo = 90 ∧
    (analyseTransactions [scenarioB] {} true).stats.maxDiff = max 0 (95 - 100) ∧
    (analyseTransactions [wrapDeltaTx] {} true).stats.maxDiff = 0 :=
  ⟨(C7_exact_yolo_from_fresh scenarioB true rfl rfl rfl (by decide) (by decide)).1,
   (C7_exact_yolo_from_fresh scenarioB true rfl rfl rfl (by decide) (by decide)).2.1,
   (C7_exact_yolo_from_fresh scenarioB true rfl rfl rfl (by decide) (by decide)).2.2.1,
   (C7_exact_yolo_from_fresh scenarioB true rfl rfl rfl (by decide) (by decide)).2.2.2.2
     (by decide),
   ((C7_exact_yolo_from_fresh wrapDeltaTx true rfl rfl rfl (by decide)
     (by decide)).2.2.2.1).trans (by decide)⟩

/-- C8: the max-delta never decreases.  After `txs` followed by one more
record `r`, `maxDiff` is at least what it is after `txs` alone, and after any
list it is at least the starting `maxDiff`. -/
theorem C8_maxDiff_monotone (s : Stats) (txs : List txInfo) (r : txInfo) (fp : Bool) :
    (analyseTransactions txs s fp).stats.maxDiff ≤
      (analyseTransactions (txs ++ [r]) s fp).stats.maxDiff ∧
    s.maxDiff ≤ (analyseTransactions txs s fp).stats.maxDiff := by
  have e1 : (analyseTransactions (txs ++ [r]) s fp).stats =
      stepStats fp (analyseTransactions txs s fp).stats r := statsAfter_snoc txs r s fp
  have e2 : (analyseTransactions txs s fp).stats = txs.foldl (stepStats fp) s :=
    statsAfter_eq_foldl txs s fp
  refine ⟨?_, ?_⟩
  · rw [e1]
    exact stepStats_maxDiff_le fp _ r
  · rw [e2]
    exact foldl_maxDiff_le fp txs s

/-- C9: the order of the records does not matter for the counters.  Two lists
that are permutations of each other, run with the same flag from the same
`Stats`, end with the same `unaffected`, `mainError`, `salvageable`, `broken`,
`gasUsedMain`, `gasUsedYolo` and `maxDiff`; and unless two or more bookkept
records attain the final `maxDiff`, with the same `maxDiffBase` and
`maxDiffYolo` too.  The sums and the delta of a record are those of Go's
`int`, so two records also tie when their deltas agree after wrap-around. -/
theorem C9_order_independent (l1 l2 : List txInfo) (s : Stats) (fp : Bool)
    (hp : l1.Perm l2) :
    ((analyseTransactions l1 s fp).stats.unaffected =
        (analyseTransactions l2 s fp).stats.unaffected ∧
      (analyseTransactions l1 s fp).stats.mainError =
        (analyseTransactions l2 s fp).stats.mainError ∧
      (analyseTransactions l1 s fp).stats.salvageable =
        (analyseTransactions l2 s fp).stats.salvageable ∧
      (analyseTransactions l1 s fp).stats.broken =
        (analyseTransactions l2 s fp).stats.broken ∧
      (analyseTransactions l1 s fp).stats.gasUsedMain =
        (analyseTransactions l2 s fp).stats.gasUsedMain ∧
      (analyseTransactions l1 s fp).stats.gasUsedYolo =
        (analyseTransactions l2 s fp).stats.gasUsedYolo ∧
      (analyseTransactions l1 s fp).stats.maxDiff =
        (analyseTransactions l2 s fp).stats.maxDiff) ∧
    ((attaining fp (analyseTransactions l1 s fp).stats.maxDiff l1).length ≤ 1 →
      (analyseTransactions l1 s fp).stats.maxDiffBase =
        (analyseTransactions l2 s fp).stats.maxDiffBase ∧
      (analyseTransactions l1 s fp).stats.maxDiffYolo =
        (analyseTransactions l2 s fp).stats.maxDiffYolo) := by
  have e1 : (analyseTransactions l1 s fp).stats = l1.foldl (stepStats fp) s :=
    statsAfter_eq_foldl l1 s fp
  have e2 : (analyseTransactions l2 s fp).stats = l2.foldl (stepStats fp) s :=
    statsAfter_eq_foldl l2 s fp
  rw [e1, e2]
  have hc := counters_perm fp l1 l2 hp s s rfl
  rw [counters_eq_iff] at hc
  obtain ⟨_, _, _, c4, c5, c6, c7, c8, c9, _, c11⟩ := hc
  refine ⟨⟨c4, c5, c6, c7, c8, c9, c11⟩, ?_⟩
  intro hone
  rcases foldl_trace fp l1 s with ⟨a1, a2, a3⟩ | ⟨alt, x, hx, hxb, hxd, hxB, hxY⟩
  · rcases foldl_trace fp l2 s with ⟨b1, b2, b3⟩ | ⟨blt, y, hy, hyb, hyd, hyB, hyY⟩
    · exact ⟨a2.trans b2.symm, a3.trans b3.symm⟩
    · rw [← c11, a1] at blt
      exact absurd blt (lt_irrefl _)
  · rcases foldl_trace fp l2 s with ⟨b1, b2, b3⟩ | ⟨blt, y, hy, hyb, hyd, hyB, hyY⟩
    · rw [c11, b1] at alt
      exact absurd alt (lt_irrefl _)
    · have mx : x ∈ attaining fp (l1.foldl (stepStats fp) s).maxDiff l1 := by
        simp only [attaining, List.mem_filter, Bool.and_eq_true, beq_iff_eq]
        exact ⟨hx, hxb, hxd⟩
      have my : y ∈ attaining fp (l1.foldl (stepStats fp) s).maxDiff l1 := by
        simp only [attaining, List.mem_filter, Bool.and_eq_true, beq_iff_eq]
        exact ⟨hp.mem_iff.2 hy, hyb, hyd.trans c11.symm⟩
      have hxy : x = y := eq_of_mem_of_length_le_one _ x y hone mx my
      subst hxy
      exact ⟨hxB.trans hyB.symm, hxY.trans hyY.symm⟩

/-- C9 on a salvageable record and Scenario B in both orders: one record
attains the final `maxDiff = 30`, and both runs agree on every field.  Two
records whose deltas tie at `5`, one of them by wrap-around, are outside the
condition: the two orders agree on `maxDiff = 5` and keep different pairs. -/
theorem C9_order_independent_witness :
    [salvageTx, scenarioB].Perm [scenarioB, salvageTx] ∧
    (attaining true (analyseTransactions [salvageTx, scenarioB] {} true).stats.maxDiff
      [salvageTx, scenarioB]).length ≤ 1 ∧
    (analyseTransactions [salvageTx, scenarioB] {} true).stats.maxDiff =
      (analyseTransactions [scenarioB, salvageTx] {} true).stats.maxDiff ∧
    ((analyseTransactions [salvageTx, scenarioB] {} true).stats.maxDiffBase =
        (analyseTransactions [scenarioB, salvageTx] {} true).stats.maxDiffBase ∧
      (analyseTransactions [salvageTx, scenarioB] {} true).stats.maxDiffYolo =
        (analyseTransactions [scenarioB, salvageTx] {} true).stats.maxDiffYolo) ∧
    (analyseTransactions [tieA, tieB] {} true).stats.maxDiff =
      (analyseTransactions [tieB, tieA] {} true).stats.maxDiff ∧
    (analyseTransactions [tieA, tieB] {} true).stats.maxDiff = 5 ∧
    (attaining true (analyseTransactions [tieA, tieB] {} true).stats.maxDiff
      [tieA, tieB]).length = 2 ∧
    (analyseTransactions [tieA, tieB] {} true).stats.maxDiffBase = 0 ∧
    (analyseTransactions [tieB, tieA] {} true).stats.maxDiffBase = 9223372036854775803 :=
  ⟨List.Perm.swap _ _ _, by decide,
   (C9_order_independent [salvageTx, scenarioB] [scenarioB, salvageTx] {} true
      (List.Perm.swap _ _ _)).1.2.2.2.2.2.2,
   (C9_order_independent [salvageTx, scenarioB] [scenarioB, salvageTx] {} true
      (List.Perm.swap _ _ _)).2 (by decide),
   (C9_order_independent [tieA, tieB] [tieB, tieA] {} true
      (List.Perm.swap _ _ _)).1.2.2.2.2.2.2,
   by decide, by decide, by decide, by decide⟩

/-- C10: `mainError <= unaffected` is an invariant of the run.  If it holds
of the starting `Stats` it holds of the result and after every prefix of the
list; the `Stats` that `parseFiles` returns satisfies it, so it holds
throughout the run of the program. -/
theorem C10_mainError_le_unaffected (txs : List txInfo) (s : Stats) (fp : Bool)
    (h : s.mainError ≤ s.unaffected) :
    ((analyseTransactions txs s fp).stats.mainError ≤
        (analyseTransactions txs s fp).stats.unaffected) ∧
    (∀ n : Nat, (analyseTransactions (txs.take n) s fp).stats.mainError ≤
        (analyseTransactions (txs.take n) s fp).stats.unaffected) ∧
    (∀ (w : World) (out : List txInfo) (ls : Stats),
        parseFiles w = { data := out, stats := some ls, err := none } →
        ∀ n : Nat, (analyseTransactions (out.take n) ls fp).stats.mainError ≤
          (analyseTransactions (out.take n) ls fp).stats.unaffected) := by
  have gen : ∀ (l : List txInfo) (t : Stats), t.mainError ≤ t.unaffected →
      (analyseTransactions l t fp).stats.mainError ≤
        (analyseTransactions l t fp).stats.unaffected := by
    intro l t ht
    have e : (analyseTransactions l t fp).stats = l.foldl (stepStats fp) t :=
      statsAfter_eq_foldl l t fp
    rw [e]
    exact foldl_mainError_le fp l t ht
  refine ⟨gen txs s h, fun n => gen _ s h, ?_⟩
  intro w out ls hload n
  obtain ⟨a1, a2, _, _, _⟩ := parseFiles_ok w out ls hload
  exact gen _ ls (by rw [a1, a2])

/-- C10 from a fresh `Stats` over a main-errored record and Scenario B. -/
theorem C10_mainError_le_unaffected_witness :
    (analyseTransactions [scenarioA, scenarioB] {} true).stats.mainError ≤
      (analyseTransactions [scenarioA, scenarioB] {} true).stats.unaffected ∧
    (analyseTransactions ([scenarioA, scenarioB].take 1) {} true).stats.mainError ≤
      (analyseTransactions ([scenarioA, scenarioB].take 1) {} true).stats.unaffected :=
  ⟨(C10_mainError_le_unaffected [scenarioA, scenarioB] {} true (by decide)).1,
   (C10_mainError_le_unaffected [scenarioA, scenarioB] {} true (by decide)).2.1 1⟩

/-! ## Integer division as Go does it -/

theorem tdiv_bounds_nonneg (n m : Int) (hn : 0 ≤ n) (hm : 0 < m) :
    0 ≤ n.tdiv m ∧ ((n.tdiv m : Int) : ℚ) ≤ (n : ℚ) / m ∧ (n : ℚ) / m < (n.tdiv m : Int) + 1 := by
  rw [Int.tdiv_eq_ediv hn (le_of_lt hm)]
  have hm' : (0 : ℚ) < m := by exact_mod_cast hm
  have h1 : n / m * m ≤ n := Int.ediv_mul_le n (ne_of_gt hm)
  have h2 : n < (n / m + 1) * m := Int.lt_ediv_add_one_mul_self n hm
  refine ⟨Int.ediv_nonneg hn (le_of_lt hm), ?_, ?_⟩
  · rw [le_div_iff₀ hm']
    exact_mod_cast h1
  · rw [div_lt_iff₀ hm']
    exact_mod_cast h2

/-- Truncation toward zero: the quotient is no larger in magnitude than the
exact ratio and less than one away from it. -/
theorem tdiv_trunc (n m : Int) (hm : m ≠ 0) :
    |((n.tdiv m : Int) : ℚ)| ≤ |(n : ℚ) / m| ∧ |(n : ℚ) / m - (n.tdiv m : Int)| < 1 := by
  have core : ∀ a b : Int, 0 ≤ a → 0 < b →
      |((a.tdiv b : Int) : ℚ)| ≤ |(a : ℚ) / b| ∧ |(a : ℚ) / b - (a.tdiv b : Int)| < 1 := by
    intro a b ha hb
    obtain ⟨h0, h1, h2⟩ := tdiv_bounds_nonneg a b ha hb
    have h0' : (0 : ℚ) ≤ (a.tdiv b : Int) := by exact_mod_cast h0
    refine ⟨?_, ?_⟩
    · rw [abs_of_nonneg h0', abs_of_nonneg (le_trans h0' h1)]
      exact h1
    · rw [abs_lt]
      constructor <;> linarith
  rcases lt_or_gt_of_ne hm with hneg | hpos
  · rcases le_total 0 n with hn | hn
    · have := core n (-m) hn (by omega)
      rw [Int.tdiv_neg] at this
      push_cast at this
      rw [abs_neg, div_neg, abs_neg, neg_sub_neg, abs_sub_comm] at this
      exact this
    · have := core (-n) (-m) (by omega) (by omega)
      rw [Int.tdiv_neg, Int.neg_tdiv, neg_neg] at this
      push_cast at this
      rw [neg_div_neg_eq] at this
      exact this
  · rcases le_total 0 n with hn | hn
    · exact core n m hn hpos
    · have := core (-n) m (by omega) hpos
      rw [Int.neg_tdiv] at this
      push_cast at this
      rw [abs_neg, neg_div, abs_neg, neg_sub_neg, abs_sub_comm] at this
      exact this

theorem tdiv_fits (n m : Int) (hn : fitsInt n) (hne : n ≠ -9223372036854775808) :
    fitsInt (n.tdiv m) := by
  have h1 : (n.tdiv m).natAbs ≤ n.natAbs := by
    rw [Int.natAbs_tdiv]
    exact Nat.div_le_self _ _
  unfold fitsInt at hn ⊢
  omega

/-- Without overflow the integer of the reporter is the truncated quotient. -/
theorem percentHundredths_exact (y m : Int) (hd : fitsInt (y - m))
    (hn : fitsInt (10000 * (y - m))) :
    percentHundredths y m = Int.tdiv (10000 * (y - m)) m := by
  unfold percentHundredths
  rw [subInt_of_fits _ _ hd]
  have e : mulInt (100 * 100) (y - m) = 10000 * (y - m) := by
    unfold mulInt
    have e1 : (100 * 100 : Int) * (y - m) = 10000 * (y - m) := by ring
    rw [e1]
    exact wrapInt_of_fits _ hn
  rw [e]
  unfold divInt
  apply wrapInt_of_fits
  apply tdiv_fits _ _ hn
  omega

/-! ## The float64 of the percent line -/

theorem roundHalfEven_near (n d : Nat) (hd : 0 < d) :
    2 * (roundHalfEven n d * d) ≤ 2 * n + d ∧ 2 * n ≤ 2 * (roundHalfEven n d * d) + d := by
  have h := Nat.div_add_mod n d
  have hlt := Nat.mod_lt n hd
  have e1 : (n / d + 1) * d = d * (n / d) + d := by ring
  have e2 : n / d * d = d * (n / d) := by ring
  unfold roundHalfEven
  split_ifs <;> omega

theorem roundHalfEven_unique (n d m : Nat) (h1 : 2 * (m * d) < 2 * n + d)
    (h2 : 2 * n < 2 * (m * d) + d) : roundHalfEven n d = m := by
  have hd : 0 < d := by
    rcases Nat.eq_zero_or_pos d with h | h
    · subst h
      omega
    · exact h
  obtain ⟨a, b⟩ := roundHalfEven_near n d hd
  rcases Nat.lt_trichotomy (roundHalfEven n d) m with h | h | h
  · have := Nat.mul_le_mul_right d (Nat.succ_le_of_lt h)
    have e : (roundHalfEven n d).succ * d = roundHalfEven n d * d + d := by
      rw [Nat.succ_mul]
    omega
  · exact h
  · have := Nat.mul_le_mul_right d (Nat.succ_le_of_lt h)
    have e : m.succ * d = m * d + d := by
      rw [Nat.succ_mul]
    omega

theorem highBit_spec : ∀ (fuel n : Nat), 0 < n → n < 2 ^ fuel →
    2 ^ highBit fuel n ≤ n ∧ n < 2 ^ (highBit fuel n + 1)
  | 0, n, h0, h => by
    simp at h
    omega
  | fuel + 1, n, h0, h => by
    unfold highBit
    split_ifs with h2
    · simp
      omega
    · have hn : n / 2 < 2 ^ fuel := by
        rw [pow_succ] at h
        omega
      obtain ⟨a, b⟩ := highBit_spec fuel (n / 2) (by omega) hn
      rw [pow_succ, pow_succ]
      rw [pow_succ] at b
      omega

theorem highBit_eq (n a : Nat) (h1 : 2 ^ a ≤ n) (h2 : n < 2 ^ (a + 1)) (h3 : n < 2 ^ 256) :
    highBit 256 n = a := by
  have h0 : 0 < n := lt_of_lt_of_le (pow_pos (by norm_num) a) h1
  obtain ⟨b1, b2⟩ := highBit_spec 256 n h0 h3
  have c1 : a < highBit 256 n + 1 :=
    (Nat.pow_lt_pow_iff_right (by norm_num : 1 < 2)).1 (lt_of_le_of_lt h1 b2)
  have c2 : highBit 256 n < a + 1 :=
    (Nat.pow_lt_pow_iff_right (by norm_num : 1 < 2)).1 (lt_of_le_of_lt b1 h2)
  omega


theorem roundHalfEven_one (n : Nat) : roundHalfEven n 1 = n := by
  unfold roundHalfEven
  simp [Nat.mod_one]

theorem float64Round_int (n : Nat) (h0 : 0 < n) (h : n < 2 ^ 53) :
    ∃ t : Nat, t ≤ 52 ∧ 2 ^ 52 ≤ n * 2 ^ t ∧ n * 2 ^ t < 2 ^ 53 ∧
      float64Round n 1 = (n * 2 ^ t, 2 ^ t) := by
  obtain ⟨a1, a2⟩ := highBit_spec 256 n h0 (lt_trans h (by norm_num))
  have ha : highBit 256 n ≤ 52 := by
    have := (Nat.pow_lt_pow_iff_right (by norm_num : 1 < 2)).1 (lt_of_le_of_lt a1 h)
    omega
  have hb1 : highBit 256 1 = 0 := by rfl
  generalize hA : highBit 256 n = a at a1 a2 ha
  have e52 : 2 ^ a * 2 ^ (52 - a) = 2 ^ 52 := by
    rw [← pow_add]
    congr 1
    omega
  have e53 : 2 ^ (a + 1) * 2 ^ (52 - a) = 2 ^ 53 := by
    rw [← pow_add]
    congr 1
    omega
  refine ⟨52 - a, by omega, ?_, ?_, ?_⟩
  · rw [← e52]
    exact Nat.mul_le_mul_right _ a1
  · rw [← e53]
    exact Nat.mul_lt_mul_of_pos_right a2 (pow_pos (by norm_num) _)
  · unfold float64Round
    have hn : (n == 0) = false := by
      simp
      omega
    simp only [hn, hA, hb1, Bool.false_eq_true, if_false]
    have l0 : (0 : Int) ≤ (a : Int) - ((0 : Nat) : Int) := by omega
    have hge : (1 * 2 ^ ((a : Int) - ((0 : Nat) : Int)).toNat ≤ n) := by
      have : ((a : Int) - ((0 : Nat) : Int)).toNat = a := by omega
      rw [this, one_mul]
      exact a1
    simp only [l0, if_true, hge, decide_True]
    by_cases h52 : a = 52
    · subst h52
      simp [roundHalfEven_one]
    · have hneg : ¬ (0 : Int) ≤ (a : Int) - ((0 : Nat) : Int) - 52 := by omega
      have ht : (-((a : Int) - ((0 : Nat) : Int) - 52)).toNat = 52 - a := by omega
      simp only [hneg, if_false, ht, roundHalfEven_one]

theorem float64Round_div100 (n t : Nat) (ht : t ≤ 52) (l52 : 2 ^ 52 ≤ n * 2 ^ t)
    (l53 : n * 2 ^ t < 2 ^ 53) (h : n < 7036874417766400) :
    ∃ p : Nat, 7 ≤ p ∧ float64Round (n * 2 ^ t) (2 ^ t * 100) =
      (roundHalfEven (n * 2 ^ t * 2 ^ p) (2 ^ t * 100), 2 ^ p) := by
  have hbN : highBit 256 (n * 2 ^ t) = 52 :=
    highBit_eq _ 52 l52 l53 (lt_trans l53 (by norm_num))
  have ht52 : 2 ^ t ≤ 2 ^ 52 := Nat.pow_le_pow_right (by norm_num) ht
  have tpos : 0 < 2 ^ t := pow_pos (by norm_num) t
  have hbD : highBit 256 (2 ^ t * 100) = t + 6 := by
    apply highBit_eq
    · rw [pow_add]
      omega
    · rw [pow_succ, pow_add]
      omega
    · have : (2 : Nat) ^ 52 * 100 < 2 ^ 256 := by norm_num
      omega
  have hN : (n * 2 ^ t == 0) = false := by
    have : 0 < 2 ^ 52 := by norm_num
    simp only [beq_eq_false_iff_ne, ne_eq]
    omega
  unfold float64Round
  simp only [hN, hbN, hbD, Bool.false_eq_true, if_false]
  generalize hge : (if (0 : Int) ≤ ((52 : Nat) : Int) - ((t + 6 : Nat) : Int) then
      decide (2 ^ t * 100 * 2 ^ (((52 : Nat) : Int) - ((t + 6 : Nat) : Int)).toNat ≤ n * 2 ^ t)
    else decide (2 ^ t * 100 ≤
      n * 2 ^ t * 2 ^ (-(((52 : Nat) : Int) - ((t + 6 : Nat) : Int))).toNat)) = ge
  cases ge with
  | false =>
    refine ⟨7 + t, by omega, ?_⟩
    have hneg : ¬ (0 : Int) ≤ ((52 : Nat) : Int) - ((t + 6 : Nat) : Int) - 1 - 52 := by omega
    have hp : (-(((52 : Nat) : Int) - ((t + 6 : Nat) : Int) - 1 - 52)).toNat = 7 + t := by
      omega
    simp only [Bool.false_eq_true, if_false, hneg, hp]
  | true =>
    have t0 : t ≠ 0 := by
      intro h0
      subst h0
      simp at hge
      omega
    refine ⟨6 + t, by omega, ?_⟩
    have hneg : ¬ (0 : Int) ≤ ((52 : Nat) : Int) - ((t + 6 : Nat) : Int) - 52 := by omega
    have hp : (-(((52 : Nat) : Int) - ((t + 6 : Nat) : Int) - 52)).toNat = 6 + t := by
      omega
    simp only [if_true, hneg, if_false, hp]

/-- Below `2^46 * 100` hundredths the two roundings of `float64(h) / 100` and
the rounding of `%.02f` cancel: the digits shown are those of `h`. -/
theorem percentDigits_exact (n : Nat) (h : n < 7036874417766400) :
    roundHalfEven
      ((float64Round (float64Round n 1).1 ((float64Round n 1).2 * 100)).1 * 100)
      (float64Round (float64Round n 1).1 ((float64Round n 1).2 * 100)).2 = n := by
  rcases Nat.eq_zero_or_pos n with h0 | h0
  · subst h0
    rfl
  · obtain ⟨t, ht, l52, l53, ef⟩ := float64Round_int n h0 (lt_trans h (by norm_num))
    rw [ef]
    obtain ⟨p, hp, eg⟩ := float64Round_div100 n t ht l52 l53 h
    simp only [eg]
    have tpos : 0 < 2 ^ t := pow_pos (by norm_num) t
    obtain ⟨a, b⟩ := roundHalfEven_near (n * 2 ^ t * 2 ^ p) (2 ^ t * 100) (by omega)
    generalize roundHalfEven (n * 2 ^ t * 2 ^ p) (2 ^ t * 100) = r at a b
    have e1 : 2 * (r * (2 ^ t * 100)) = 2 ^ t * (2 * (r * 100)) := by ring
    have e2 : 2 * (n * 2 ^ t * 2 ^ p) + 2 ^ t * 100 = 2 ^ t * (2 * (n * 2 ^ p) + 100) := by
      ring
    have e3 : 2 * (n * 2 ^ t * 2 ^ p) = 2 ^ t * (2 * (n * 2 ^ p)) := by ring
    have e4 : 2 * (r * (2 ^ t * 100)) + 2 ^ t * 100 = 2 ^ t * (2 * (r * 100) + 100) := by
      ring
    rw [e1, e2] at a
    rw [e3, e4] at b
    have a' := Nat.le_of_mul_le_mul_left a tpos
    have b' := Nat.le_of_mul_le_mul_left b tpos
    have hp7 : 2 ^ 7 ≤ 2 ^ p := Nat.pow_le_pow_right (by norm_num) hp
    apply roundHalfEven_unique <;> omega

/-- Below `2^46 * 100` hundredths the percent is shown digit for digit. -/
theorem fmtPercent_exact (h : Int) (hb : h.natAbs < 7036874417766400) :
    fmtPercent h =
      (if h < 0 then "-" else "") ++ toString (h.natAbs / 100) ++ "." ++
        (if h.natAbs % 100 < 10 then "0" else "") ++ toString (h.natAbs % 100) := by
  unfold fmtPercent
  simp only [percentDigits_exact _ hb]

/-! ## The reporter -/

theorem print_of_ne_zero (s : Stats) (hm : s.gasUsedMain ≠ 0) :
    s.print =
      { stdout :=
          [ "Number of blocks: `" ++ toString s.numBlocks ++ "`\n",
            " - number of empty (ignored) blocks: `" ++ toString s.emptyBlocks ++ "`\n",
            "Number of transactions: `" ++ toString s.numTxs ++ "`\n",
            "\n",
            "Number of unaffected transactions: `" ++ toString s.unaffected ++ "`\n",
            "- broken on mainnet already: `" ++ toString s.mainError ++ "`\n",
            "Number of salvageable transactions: `" ++ toString s.salvageable ++ "`\n",
            "Number of broken transactions: `" ++ toString s.broken ++ "`\n",
            "\n",
            "Gas usage for mainnet vs yolo: `" ++ toString s.gasUsedMain ++ "` vs `" ++
              toString (addInt s.gasUsedYolo s.gasUsedYolo2x) ++ "`\n",
            "The gas usage with yolo rules is `" ++
              fmtPercent
                (percentHundredths (addInt s.gasUsedYolo s.gasUsedYolo2x) s.gasUsedMain) ++
              " %`\n",
            "\n",
            "Largest EIP-2929 gas difference " ++ toString s.maxDiff ++ " (from `" ++
              toString s.maxDiffBase ++ "` to `" ++ toString s.maxDiffYolo ++ "`).\n" ],
        panic := none } := by
  simp [Stats.print, hm]

theorem print_of_zero (s : Stats) (hm : s.gasUsedMain = 0) :
    s.print.panic = some "runtime error: integer divide by zero" ∧ s.print.stdout.length = 8 := by
  simp [Stats.print, hm]

/-! ## The loader, entry by entry -/

theorem parseEntries_skip (w : World) (name : String) (rest : List String)
    (data : List txInfo) (stats : Stats) (h : hasPrefixStr name "block_" = false) :
    parseEntries w (name :: rest) data stats = parseEntries w rest data stats := by
  rw [parseEntries]
  simp [h]

theorem parseEntries_fail (w : World) (name : String) (rest : List String)
    (data : List txInfo) (stats : Stats) (h : hasPrefixStr name "block_" = true)
    (hf : entryFails w name = true) :
    ∃ err, parseEntries w (name :: rest) data stats =
      { data := [], stats := none, err := some err } := by
  rw [parseEntries]
  simp only [h, Bool.not_true, Bool.false_eq_true, if_false]
  unfold entryFails entryRecords at hf
  cases hr : w.readFile ("./rawdata/" ++ name) with
  | error e => exact ⟨e, rfl⟩
  | ok byts =>
    rw [hr] at hf
    dsimp only at hf ⊢
    cases hu : w.unmarshal byts with
    | error e => exact ⟨e, rfl⟩
    | ok blockdata => simp [hu] at hf

theorem parseEntries_load (w : World) (name : String) (rest : List String)
    (data : List txInfo) (stats : Stats) (h : hasPrefixStr name "block_" = true)
    (hf : entryFails w name = false) :
    parseEntries w (name :: rest) data stats =
      parseEntries w rest (data ++ tagged w name)
        { stats with
          numBlocks := stats.numBlocks + 1
          numTxs := stats.numTxs + (recordsOf w name).length
          emptyBlocks := stats.emptyBlocks + (if (recordsOf w name).length = 0 then 1 else 0) } := by
  rw [parseEntries]
  simp only [h, Bool.not_true, Bool.false_eq_true, if_false]
  unfold tagged recordsOf
  unfold entryFails at hf
  unfold entryRecords at hf ⊢
  cases hr : w.readFile ("./rawdata/" ++ name) with
  | error e => simp [hr] at hf
  | ok byts =>
    rw [hr] at hf
    dsimp only at hf ⊢
    cases hu : w.unmarshal byts with
    | error e => simp [hu] at hf
    | ok blockdata =>
      dsimp only
      congr 1
      by_cases hl : blockdata.length = 0
      · simp [hl]
      · simp [hl]

/-- A load that succeeds leaves the gas sums and the max-delta tracker of the
accumulator alone. -/
theorem parseEntries_frame (w : World) (names : List String) (data : List txInfo)
    (stats : Stats) (out : List txInfo) (ls : Stats)
    (h : parseEntries w names data stats = { data := out, stats := some ls, err := none }) :
    ls.gasUsedMain = stats.gasUsedMain ∧ ls.gasUsedYolo = stats.gasUsedYolo ∧
    ls.gasUsedYolo2x = stats.gasUsedYolo2x ∧ ls.maxDiff = stats.maxDiff ∧
    ls.maxDiffBase = stats.maxDiffBase ∧ ls.maxDiffYolo = stats.maxDiffYolo := by
  induction names generalizing data stats with
  | nil =>
    simp only [parseEntries, Loaded.mk.injEq, Option.some.injEq, and_true] at h
    obtain ⟨_, h2⟩ := h
    subst h2
    exact ⟨rfl, rfl, rfl, rfl, rfl, rfl⟩
  | cons name rest ih =>
    cases hp : hasPrefixStr name "block_" with
    | false =>
      rw [parseEntries_skip w name rest data stats hp] at h
      exact ih data stats h
    | true =>
      cases hf : entryFails w name with
      | true =>
        obtain ⟨e, he⟩ := parseEntries_fail w name rest data stats hp hf
        rw [he] at h
        simp at h
      | false =>
        rw [parseEntries_load w name rest data stats hp hf] at h
        exact ih _ { stats with
          numBlocks := stats.numBlocks + 1
          numTxs := stats.numTxs + (recordsOf w name).length
          emptyBlocks := stats.emptyBlocks +
            (if (recordsOf w name).length = 0 then 1 else 0) } h

theorem parseFiles_frame (w : World) (out : List txInfo) (ls : Stats)
    (h : parseFiles w = { data := out, stats := some ls, err := none }) :
    ls.gasUsedMain = 0 ∧ ls.gasUsedYolo = 0 ∧ ls.gasUsedYolo2x = 0 ∧ ls.maxDiff = 0 ∧
    ls.maxDiffBase = 0 ∧ ls.maxDiffYolo = 0 := by
  unfold parseFiles at h
  cases hd : w.readDir "./rawdata/" with
  | error e => simp [hd] at h
  | ok finfo =>
    simp only [hd] at h
    exact parseEntries_frame w finfo [] {} out ls h

theorem blockNames_cons_of_pos (name : String) (rest : List String)
    (h : hasPrefixStr name "block_" = true) :
    blockNames (name :: rest) = name :: blockNames rest := by
  simp [blockNames, h]

theorem blockNames_cons_of_neg (name : String) (rest : List String)
    (h : hasPrefixStr name "block_" = false) :
    blockNames (name :: rest) = blockNames rest := by
  simp [blockNames, h]

/-- The result of the loop when every `block_` entry reads and parses. -/
theorem parseEntries_all_ok (w : World) (names : List String) (data : List txInfo)
    (stats : Stats)
    (hok : ∀ name ∈ names, hasPrefixStr name "block_" = true → entryFails w name = false) :
    parseEntries w names data stats =
      { data := data ++ (blockNames names).flatMap (tagged w),
        stats := some
          { stats with
            numBlocks := stats.numBlocks + (blockNames names).length
            numTxs := stats.numTxs +
              (((blockNames names).map (fun name => (recordsOf w name).length)).sum : Nat)
            emptyBlocks := stats.emptyBlocks +
              ((blockNames names).filter (fun name => (recordsOf w name).isEmpty)).length },
        err := none } := by
  induction names generalizing data stats with
  | nil => simp [parseEntries, blockNames]
  | cons name rest ih =>
    have hrest : ∀ n ∈ rest, hasPrefixStr n "block_" = true → entryFails w n = false :=
      fun n hn => hok n (List.mem_cons_of_mem _ hn)
    cases hp : hasPrefixStr name "block_" with
    | false =>
      rw [parseEntries_skip w name rest data stats hp, blockNames_cons_of_neg name rest hp]
      exact ih data stats hrest
    | true =>
      have hf := hok name (List.mem_cons_self _ _) hp
      rw [parseEntries_load w name rest data stats hp hf, blockNames_cons_of_pos name rest hp,
        ih _ _ hrest]
      simp only [List.flatMap_cons, List.append_assoc, List.length_cons, List.map_cons,
        List.sum_cons, Loaded.mk.injEq, Option.some.injEq, Stats.mk.injEq, true_and, and_true]
      refine ⟨?_, ?_, ?_⟩
      · push_cast
        ring
      · push_cast
        ring
      · by_cases hl : (recordsOf w name).length = 0
        · have he : (recordsOf w name).isEmpty = true := by
            rw [List.isEmpty_iff_length_eq_zero]
            exact hl
          simp [hl, he]
          ring
        · have he : (recordsOf w name).isEmpty = false := by
            rw [Bool.eq_false_iff, Ne, List.isEmpty_iff_length_eq_zero]
            exact hl
          simp [hl, he]

/-- The loop fails, with nothing to show for it, as soon as some `block_`
entry cannot be read or parsed. -/
theorem parseEntries_some_fail (w : World) (names : List String) (data : List txInfo)
    (stats : Stats)
    (hbad : ∃ name ∈ names, hasPrefixStr name "block_" = true ∧ entryFails w name = true) :
    ∃ err, parseEntries w names data stats = { data := [], stats := none, err := some err } := by
  induction names generalizing data stats with
  | nil =>
    obtain ⟨n, hn, _⟩ := hbad
    cases hn
  | cons name rest ih =>
    cases hp : hasPrefixStr name "block_" with
    | false =>
      rw [parseEntries_skip w name rest data stats hp]
      apply ih
      obtain ⟨n, hn, h1, h2⟩ := hbad
      rcases List.mem_cons.1 hn with rfl | hn'
      · rw [hp] at h1
        cases h1
      · exact ⟨n, hn', h1, h2⟩
    | true =>
      cases hf : entryFails w name with
      | true => exact parseEntries_fail w name rest data stats hp hf
      | false =>
        rw [parseEntries_load w name rest data stats hp hf]
        apply ih
        obtain ⟨n, hn, h1, h2⟩ := hbad
        rcases List.mem_cons.1 hn with rfl | hn'
        · rw [hf] at h2
          cases h2
        · exact ⟨n, hn', h1, h2⟩

theorem length_flatMap_tagged (w : World) (l : List String) :
    (l.flatMap (tagged w)).length = (l.map (fun name => (recordsOf w name).length)).sum := by
  induction l with
  | nil => rfl
  | cons a rest ih => simp [List.flatMap_cons, ih, tagged]

/-! ## The max-delta tracker in closed form -/

theorem foldl_maxDiff_eq (fp : Bool) (l : List txInfo) (s : Stats) :
    (l.foldl (stepStats fp) s).maxDiff =
      ((l.filter (bookkept fp)).map
        (fun tx => subInt tx.Yolo2xGasUsed tx.MainGasUsed)).foldl max s.maxDiff := by
  induction l generalizing s with
  | nil => rfl
  | cons x rest ih =>
    rw [List.foldl_cons, ih, stepStats_kinds]
    by_cases hm : x.MainError = true
    · have hb : bookkept fp x = false := by simp [bookkept, hm]
      rw [if_pos hm, List.filter_cons_of_neg (by simp [hb])]
    · rw [if_neg hm]
      by_cases hb : bookkept fp x = true
      · rw [if_pos hb, List.filter_cons_of_pos hb, List.map_cons, List.foldl_cons,
          updateMaxDiff_maxDiff, (countGas_frame s x _).2.2.2.2.2.2.1]
      · rw [if_neg hb, List.filter_cons_of_neg hb]

/-! ## The two values of the leniency flag side by side -/

theorem leniency_step (a b : Stats) (tx : txInfo)
    (h : a.broken ≤ b.broken ∧ b.unaffected ≤ a.unaffected ∧
      b.salvageable ≤ a.salvageable ∧ a.mainError = b.mainError) :
    (stepStats true a tx).broken ≤ (stepStats false b tx).broken ∧
    (stepStats false b tx).unaffected ≤ (stepStats true a tx).unaffected ∧
    (stepStats false b tx).salvageable ≤ (stepStats true a tx).salvageable ∧
    (stepStats true a tx).mainError = (stepStats false b tx).mainError := by
  obtain ⟨h1, h2, h3, h4⟩ := h
  rw [stepStats_branches, stepStats_branches]
  cases tx.MainError <;> cases exactYolo tx <;> cases exactYolo2x tx <;>
    cases lenientYolo tx <;> cases lenientYolo2x tx <;>
    simp [updateMaxDiff_frame] <;> omega

theorem leniency_foldl (l : List txInfo) (a b : Stats)
    (h : a.broken ≤ b.broken ∧ b.unaffected ≤ a.unaffected ∧
      b.salvageable ≤ a.salvageable ∧ a.mainError = b.mainError) :
    (l.foldl (stepStats true) a).broken ≤ (l.foldl (stepStats false) b).broken ∧
    (l.foldl (stepStats false) b).unaffected ≤ (l.foldl (stepStats true) a).unaffected ∧
    (l.foldl (stepStats false) b).salvageable ≤ (l.foldl (stepStats true) a).salvageable ∧
    (l.foldl (stepStats true) a).mainError = (l.foldl (stepStats false) b).mainError := by
  induction l generalizing a b with
  | nil => exact h
  | cons x rest ih => exact ih _ _ (leniency_step a b x h)

/-- A record settled by the main-error rule or an exact match changes the
counters by the same amounts whatever the flag and whatever the accumulator it
meets. -/
theorem strict_step (a b : Stats) (tx : txInfo)
    (h : tx.MainError = true ∨ exactYolo tx = true ∨ exactYolo2x tx = true) :
    (stepStats true a tx).unaffected - a.unaffected =
      (stepStats false b tx).unaffected - b.unaffected ∧
    (stepStats true a tx).mainError - a.mainError =
      (stepStats false b tx).mainError - b.mainError ∧
    (stepStats true a tx).salvageable - a.salvageable =
      (stepStats false b tx).salvageable - b.salvageable ∧
    (stepStats true a tx).broken - a.broken = (stepStats false b tx).broken - b.broken := by
  rw [stepStats_branches, stepStats_branches]
  revert h
  cases tx.MainError <;> cases exactYolo tx <;> cases exactYolo2x tx <;>
    simp [updateMaxDiff_frame]

/-- The gas bookkeeping of such a record: nothing for a main-errored one,
otherwise `MainGasUsed` and the gas of the variant that matched, whatever the
flag. -/
theorem strict_gas (fp : Bool) (a : Stats) (tx : txInfo)
    (h : tx.MainError = true ∨ exactYolo tx = true ∨ exactYolo2x tx = true) :
    (stepStats fp a tx).gasUsedMain =
      (if tx.MainError = true then a.gasUsedMain else addInt a.gasUsedMain tx.MainGasUsed) ∧
    (stepStats fp a tx).gasUsedYolo =
      (if tx.MainError = true then a.gasUsedYolo
        else addInt a.gasUsedYolo
          (if exactYolo tx = true then tx.YoloGasUsed else tx.Yolo2xGasUsed)) := by
  rw [stepStats_branches]
  revert h
  cases tx.MainError <;> cases exactYolo tx <;> cases exactYolo2x tx <;>
    simp [updateMaxDiff_frame]

/-! ## The sums in closed form -/

theorem stepStats_closed (fp : Bool) (s : Stats) (tx : txInfo) :
    (stepStats fp s tx).gasUsedYolo =
      (if gasUnaffected fp tx = true then addInt s.gasUsedYolo tx.YoloGasUsed
        else if countedSalvageable fp tx = true then addInt s.gasUsedYolo tx.Yolo2xGasUsed
        else s.gasUsedYolo) ∧
    (stepStats fp s tx).unaffected =
      s.unaffected + (if tx.MainError = true then 1 else 0) +
        (if gasUnaffected fp tx = true then 1 else 0) ∧
    (stepStats fp s tx).salvageable =
      s.salvageable + (if countedSalvageable fp tx = true then 1 else 0) := by
  rw [stepStats_branches]
  unfold gasUnaffected countedSalvageable
  cases tx.MainError <;> cases exactYolo tx <;> cases exactYolo2x tx <;> cases fp <;>
    cases lenientYolo tx <;> cases lenientYolo2x tx <;> simp [updateMaxDiff_frame]

theorem foldl_closed (fp : Bool) (l : List txInfo) (s : Stats) :
    (l.foldl (stepStats fp) s).unaffected =
      s.unaffected + (l.filter (fun tx => tx.MainError)).length +
        (l.filter (gasUnaffected fp)).length ∧
    (l.foldl (stepStats fp) s).salvageable =
      s.salvageable + (l.filter (countedSalvageable fp)).length := by
  induction l generalizing s with
  | nil => simp
  | cons x rest ih =>
    obtain ⟨a2, a3⟩ := ih (stepStats fp s x)
    obtain ⟨_, b2, b3⟩ := stepStats_closed fp s x
    rw [List.foldl_cons, a2, a3, b2, b3]
    simp only [List.filter_cons]
    refine ⟨?_, ?_⟩
    · split_ifs <;> simp <;> ring
    · split_ifs
      · simp
        ring
      · simp

/-- The yolo gas sum of a run is, up to wrap-around, the starting value plus
the yolo gas of the unaffected and the yolo2x gas of the salvageable records. -/
theorem foldl_gasUsedYolo (fp : Bool) (l : List txInfo) (s : Stats) :
    wrapInt (l.foldl (stepStats fp) s).gasUsedYolo =
      wrapInt (s.gasUsedYolo +
        (((l.filter (gasUnaffected fp)).map (fun tx => tx.YoloGasUsed)).sum +
          ((l.filter (countedSalvageable fp)).map (fun tx => tx.Yolo2xGasUsed)).sum)) := by
  induction l generalizing s with
  | nil => simp
  | cons x rest ih =>
    rw [List.foldl_cons, ih (stepStats fp s x), (stepStats_closed fp s x).1]
    have excl : gasUnaffected fp x = true → countedSalvageable fp x = false := by
      unfold gasUnaffected countedSalvageable
      cases x.MainError <;> cases exactYolo x <;> cases exactYolo2x x <;> cases fp <;>
        cases lenientYolo x <;> cases lenientYolo2x x <;> simp
    by_cases h1 : gasUnaffected fp x = true
    · have h2 := excl h1
      rw [if_pos h1, List.filter_cons_of_pos h1,
        List.filter_cons_of_neg (by rw [h2]; exact Bool.false_ne_true), List.map_cons,
        List.sum_cons]
      unfold addInt
      rw [wrapInt_add_left]
      congr 1
      ring
    · rw [if_neg h1, List.filter_cons_of_neg h1]
      by_cases h2 : countedSalvageable fp x = true
      · rw [if_pos h2, List.filter_cons_of_pos h2, List.map_cons, List.sum_cons]
        unfold addInt
        rw [wrapInt_add_left]
        congr 1
        ring
      · rw [if_neg h2, List.filter_cons_of_neg h2]

theorem foldl_gasUsedYolo_fits (fp : Bool) (l : List txInfo) (s : Stats)
    (h : fitsInt s.gasUsedYolo) : fitsInt (l.foldl (stepStats fp) s).gasUsedYolo := by
  induction l generalizing s with
  | nil => exact h
  | cons x rest ih =>
    rw [List.foldl_cons]
    apply ih
    rw [(stepStats_closed fp s x).1]
    split_ifs
    · exact wrapInt_fits _
    · exact wrapInt_fits _
    · exact h

/-! ## The claims on the reporter, the loader and whole runs -/

/-- C11 as stated fails: after one unaffected record with `MainGasUsed = 3`
and `YoloGasUsed = 5` the exact value is `20000 / 3 = 6666.67` hundredths,
which rounds to `6667`, and the code computes `6666` and prints `66.66`. -/
theorem C11_rounding_counterexample :
    (analyseTransactions [thirdsTx] {} true).stats.gasUsedMain = 3 ∧
    addInt (analyseTransactions [thirdsTx] {} true).stats.gasUsedYolo
      (analyseTransactions [thirdsTx] {} true).stats.gasUsedYolo2x = 5 ∧
    percentHundredths 5 3 = 6666 ∧ specPercentHundredths 5 3 = 6667 ∧
    percentHundredths 5 3 ≠ specPercentHundredths 5 3 ∧
    (analyseTransactions [thirdsTx] {} true).stats.print.stdout[10]? =
      some "The gas usage with yolo rules is `66.66 %`\n" := by
  have h1 : percentHundredths 5 3 = 6666 := by decide
  have h2 : specPercentHundredths 5 3 = 6667 := by
    norm_num [specPercentHundredths, round_eq]
  refine ⟨by decide, by decide, h1, h2, ?_, by decide⟩
  rw [h1, h2]
  decide

/-- C11, amended: for every `Stats` with `gasUsedMain != 0` the reporter does
not panic, and as long as `y = gasUsedYolo + gasUsedYolo2x` and
`100*100*(y-m)` stay within the range of `int`, the hundredths value
`100*100*(y-m)/m` that the code computes is the quotient `q` of Go's integer
division, the exact rational `10000 (y-m) / m` truncated toward zero: it is
no larger in magnitude than the exact value and less than one away from it.
While `|q| < 2^46 * 100` the percent line shows `q / 100` digit for digit: a
minus sign if `q` is negative, the whole part, a point and two decimals. -/
theorem C11_percent_truncates (s : Stats) (hm : s.gasUsedMain ≠ 0)
    (hy : fitsInt (s.gasUsedYolo + s.gasUsedYolo2x))
    (hn : fitsInt (10000 * (s.gasUsedYolo + s.gasUsedYolo2x - s.gasUsedMain))) :
    s.print.panic = none ∧
    percentHundredths (addInt s.gasUsedYolo s.gasUsedYolo2x) s.gasUsedMain =
      Int.tdiv (10000 * (s.gasUsedYolo + s.gasUsedYolo2x - s.gasUsedMain)) s.gasUsedMain ∧
    |((percentHundredths (addInt s.gasUsedYolo s.gasUsedYolo2x) s.gasUsedMain : Int) : ℚ)| ≤
      |(10000 * ((s.gasUsedYolo + s.gasUsedYolo2x : Int) - s.gasUsedMain) : ℚ) / s.gasUsedMain| ∧
    |(10000 * ((s.gasUsedYolo + s.gasUsedYolo2x : Int) - s.gasUsedMain) : ℚ) / s.gasUsedMain -
        (percentHundredths (addInt s.gasUsedYolo s.gasUsedYolo2x) s.gasUsedMain : Int)| < 1 ∧
    ((Int.tdiv (10000 * (s.gasUsedYolo + s.gasUsedYolo2x - s.gasUsedMain))
        s.gasUsedMain).natAbs < 7036874417766400 →
      s.print.stdout[10]? =
        some ("The gas usage with yolo rules is `" ++
          ((if Int.tdiv (10000 * (s.gasUsedYolo + s.gasUsedYolo2x - s.gasUsedMain))
              s.gasUsedMain < 0 then "-" else "") ++
            toString ((Int.tdiv (10000 * (s.gasUsedYolo + s.gasUsedYolo2x - s.gasUsedMain))
              s.gasUsedMain).natAbs / 100) ++ "." ++
            (if (Int.tdiv (10000 * (s.gasUsedYolo + s.gasUsedYolo2x - s.gasUsedMain))
              s.gasUsedMain).natAbs % 100 < 10 then "0" else "") ++
            toString ((Int.tdiv (10000 * (s.gasUsedYolo + s.gasUsedYolo2x - s.gasUsedMain))
              s.gasUsedMain).natAbs % 100)) ++ " %`\n")) := by
  have hd : fitsInt (s.gasUsedYolo + s.gasUsedYolo2x - s.gasUsedMain) := by
    unfold fitsInt at hn ⊢
    omega
  have hp : percentHundredths (addInt s.gasUsedYolo s.gasUsedYolo2x) s.gasUsedMain =
      Int.tdiv (10000 * (s.gasUsedYolo + s.gasUsedYolo2x - s.gasUsedMain)) s.gasUsedMain := by
    rw [addInt_of_fits _ _ hy]
    exact percentHundredths_exact _ _ hd hn
  have h := tdiv_trunc (10000 * (s.gasUsedYolo + s.gasUsedYolo2x - s.gasUsedMain))
    s.gasUsedMain hm
  have e : (((10000 * (s.gasUsedYolo + s.gasUsedYolo2x - s.gasUsedMain) : Int) : ℚ)) =
      10000 * ((s.gasUsedYolo + s.gasUsedYolo2x : Int) - s.gasUsedMain) := by
    push_cast
    ring
  rw [e] at h
  rw [print_of_ne_zero s hm, hp]
  refine ⟨rfl, rfl, h.1, h.2, ?_⟩
  intro hq
  rw [fmtPercent_exact _ hq]
  rfl

/-- The amended C11 on gas sums `3` and `5`: no panic, the code computes
`6666`, which is not above `20000 / 3` and less than one below it, and the
line shows `66.66`.  On sums whose difference times `100*100` is out of range
the line shows `20.00` for a `y` that is `922337203685477582` times `m`, and
from `2^46 * 100` hundredths on the last digit may be off, as in Go. -/
theorem C11_percent_truncates_witness :
    thirdsStats.gasUsedMain ≠ 0 ∧
    thirdsStats.print.panic = none ∧
    percentHundredths (addInt thirdsStats.gasUsedYolo thirdsStats.gasUsedYolo2x)
      thirdsStats.gasUsedMain = 6666 ∧
    |(10000 * ((thirdsStats.gasUsedYolo + thirdsStats.gasUsedYolo2x : Int) -
        thirdsStats.gasUsedMain) : ℚ) / thirdsStats.gasUsedMain -
        (percentHundredths (addInt thirdsStats.gasUsedYolo thirdsStats.gasUsedYolo2x)
          thirdsStats.gasUsedMain : Int)| < 1 ∧
    thirdsStats.print.stdout[10]? = some "The gas usage with yolo rules is `66.66 %`\n" ∧
    overflowStats.print.stdout[10]? = some "The gas usage with yolo rules is `20.00 %`\n" ∧
    fmtPercent 7036874417766410 = "70368744177664.09" :=
  ⟨by decide,
   (C11_percent_truncates thirdsStats (by decide) (by decide) (by decide)).1,
   (C11_percent_truncates thirdsStats (by decide) (by decide) (by decide)).2.1.trans
     (by decide),
   (C11_percent_truncates thirdsStats (by decide) (by decide) (by decide)).2.2.2.1,
   ((C11_percent_truncates thirdsStats (by decide) (by decide) (by decide)).2.2.2.2
     (by decide)).trans (by decide),
   by decide, by decide⟩

/-- C12 on the code: an empty directory loads as `numBlocks = 0`,
`numTxs = 0` with no error, and the reporter then divides by the zero
`gasUsedMain`: `print` panics after the eight count lines and the program dies
with `integer divide by zero`.  The same happens after records that leave
`gasUsedMain` at zero, and for every `Stats` with `gasUsedMain = 0`. -/
theorem C12_zero_gas_panics :
    parseFiles emptyWorld = { data := [], stats := some {}, err := none } ∧
    (analyseTransactions [] {} true).stats.gasUsedMain = 0 ∧
    (analyseTransactions [] {} true).stats.print.panic =
      some "runtime error: integer divide by zero" ∧
    (main emptyWorld).outcome = Outcome.panicked "runtime error: integer divide by zero" ∧
    (analyseTransactions [scenarioA, scenarioD] {} true).stats.print.panic =
      some "runtime error: integer divide by zero" ∧
    (∀ s : Stats, s.gasUsedMain = 0 →
      s.print.panic = some "runtime error: integer divide by zero") := by
  refine ⟨by decide, by decide, by decide, by decide, by decide, ?_⟩
  intro s hs
  exact (print_of_zero s hs).1

/-- C13: `analyseTransactions` returns for every input, always with a nil
error, and one more record raises exactly one of `unaffected`, `salvageable`
and `broken` by one and leaves the other two as they were. -/
theorem C13_total_one_category (pre : List txInfo) (tx : txInfo) (s : Stats) (fp : Bool) :
    (analyseTransactions pre s fp).err = none ∧
    (analyseTransactions (pre ++ [tx]) s fp).err = none ∧
    (((statsAfter (pre ++ [tx]) s fp).unaffected = (statsAfter pre s fp).unaffected + 1 ∧
        (statsAfter (pre ++ [tx]) s fp).salvageable = (statsAfter pre s fp).salvageable ∧
        (statsAfter (pre ++ [tx]) s fp).broken = (statsAfter pre s fp).broken) ∨
      ((statsAfter (pre ++ [tx]) s fp).unaffected = (statsAfter pre s fp).unaffected ∧
        (statsAfter (pre ++ [tx]) s fp).salvageable = (statsAfter pre s fp).salvageable + 1 ∧
        (statsAfter (pre ++ [tx]) s fp).broken = (statsAfter pre s fp).broken) ∨
      ((statsAfter (pre ++ [tx]) s fp).unaffected = (statsAfter pre s fp).unaffected ∧
        (statsAfter (pre ++ [tx]) s fp).salvageable = (statsAfter pre s fp).salvageable ∧
        (statsAfter (pre ++ [tx]) s fp).broken = (statsAfter pre s fp).broken + 1)) := by
  refine ⟨rfl, rfl, ?_⟩
  rw [statsAfter_snoc, stepStats_kinds]
  generalize statsAfter pre s fp = a
  split_ifs
  · exact Or.inl ⟨rfl, rfl, rfl⟩
  · simp only [updateMaxDiff_frame, countGas_frame, countGas_values]
    cases viaYolo tx <;> simp
  · exact Or.inr (Or.inr ⟨rfl, rfl, rfl⟩)

/-- C14: when the directory can be listed and every entry named `block_...`
reads and parses, `parseFiles` returns no error; the flat slice is the
concatenation, in listing order, of the records of the `block_` entries, each
record with `BlockHash` set to the name of its entry and nothing else
changed; `numBlocks` is the number of `block_` entries, `numTxs` the total
number of their records, which is the length of the slice, and `emptyBlocks`
the number of `block_` entries without records, at most `numBlocks`.  Entries
without the prefix contribute nothing. -/
theorem C14_loader_result (w : World) (names : List String)
    (hdir : w.readDir "./rawdata/" = .ok names)
    (hok : ∀ name ∈ names, hasPrefixStr name "block_" = true → entryFails w name = false) :
    (parseFiles w).err = none ∧
    (parseFiles w).data =
      (names.filter (fun name => hasPrefixStr name "block_")).flatMap
        (fun name => (recordsOf w name).map (fun tx => { tx with BlockHash := name })) ∧
    (parseFiles w).stats = some
      { numBlocks := ((names.filter (fun name => hasPrefixStr name "block_")).length : Nat)
        numTxs := ((((names.filter (fun name => hasPrefixStr name "block_")).map
          (fun name => (recordsOf w name).length)).sum : Nat) : Int)
        emptyBlocks := (((names.filter (fun name => hasPrefixStr name "block_")).filter
          (fun name => (recordsOf w name).isEmpty)).length : Nat) } ∧
    ((names.filter (fun name => hasPrefixStr name "block_")).map
        (fun name => (recordsOf w name).length)).sum = (parseFiles w).data.length ∧
    ((names.filter (fun name => hasPrefixStr name "block_")).filter
        (fun name => (recordsOf w name).isEmpty)).length ≤
      (names.filter (fun name => hasPrefixStr name "block_")).length := by
  have e : parseFiles w = parseEntries w names [] {} := by
    unfold parseFiles
    rw [hdir]
  rw [e, parseEntries_all_ok w names [] {} hok]
  refine ⟨rfl, ?_, ?_, ?_, List.length_filter_le _ _⟩
  · simp only [List.nil_append, blockNames]
    rfl
  · simp [blockNames]
  · simp only [List.nil_append]
    exact (length_flatMap_tagged w (blockNames names)).symm

/-- C14 on a directory with an empty block, a stray entry that cannot be
read and a block of two records: two blocks, one of them empty, two records,
tagged `block_b`. -/
theorem C14_loader_result_witness :
    (parseFiles mixedWorld).err = none ∧
    (parseFiles mixedWorld).data =
      [{ scenarioB with BlockHash := "block_b" }, { scenarioD with BlockHash := "block_b" }] ∧
    (parseFiles mixedWorld).stats = some { numBlocks := 2, numTxs := 2, emptyBlocks := 1 } := by
  have h := C14_loader_result mixedWorld ["block_a", "junk", "block_b"] rfl (by decide)
  exact ⟨h.1, h.2.1.trans (by decide), h.2.2.1.trans (by decide)⟩

/-- C15: `parseFiles` returns an error exactly when the directory cannot be
listed or some entry named `block_...` cannot be read or parsed; and with an
error it returns a nil slice and a nil `*Stats`, whatever was loaded before
the failing entry.  An entry without the prefix is never opened. -/
theorem C15_loader_fails_whole (w : World) :
    ((parseFiles w).err ≠ none ↔
      ((∃ e, w.readDir "./rawdata/" = .error e) ∨
        ∃ names, w.readDir "./rawdata/" = .ok names ∧
          ∃ name ∈ names, hasPrefixStr name "block_" = true ∧ entryFails w name = true)) ∧
    ((parseFiles w).err ≠ none → (parseFiles w).data = [] ∧ (parseFiles w).stats = none) := by
  cases hd : w.readDir "./rawdata/" with
  | error e =>
    have e1 : parseFiles w = { data := [], stats := none, err := some e } := by
      unfold parseFiles
      rw [hd]
    rw [e1]
    simp
  | ok names =>
    have e1 : parseFiles w = parseEntries w names [] {} := by
      unfold parseFiles
      rw [hd]
    rw [e1]
    by_cases hbad : ∃ name ∈ names, hasPrefixStr name "block_" = true ∧ entryFails w name = true
    · obtain ⟨err, he⟩ := parseEntries_some_fail w names [] {} hbad
      rw [he]
      refine ⟨⟨fun _ => Or.inr ⟨names, rfl, hbad⟩, fun _ => by simp⟩, fun _ => ⟨rfl, rfl⟩⟩
    · have hok : ∀ name ∈ names, hasPrefixStr name "block_" = true →
          entryFails w name = false := by
        intro n hn hp
        cases hf : entryFails w n with
        | false => rfl
        | true => exact absurd ⟨n, hn, hp, hf⟩ hbad
      rw [parseEntries_all_ok w names [] {} hok]
      refine ⟨⟨fun h => absurd rfl h, ?_⟩, fun h => absurd rfl h⟩
      rintro (⟨e, he⟩ | ⟨names', hn', hb⟩)
      · cases he
      · cases hn'
        exact absurd hb hbad

/-- C15 on a directory whose second block file is malformed: the first block
parsed, a stray entry was skipped, and the call still returns nothing but the
error. -/
theorem C15_loader_fails_whole_witness :
    (parseFiles brokenWorld).err = some "invalid character" ∧
    (parseFiles brokenWorld).data = [] ∧ (parseFiles brokenWorld).stats = none :=
  ⟨by decide, (C15_loader_fails_whole brokenWorld).2 (by decide)⟩

/-- C16: a run that starts with the max-delta tracker at zero, as the fresh
`Stats` of `parseFiles` has it, ends with `maxDiff >= 0`,
`maxDiff = maxDiffYolo - maxDiffBase`, and `maxDiff` the largest of `0` and
the differences `Yolo2xGasUsed - MainGasUsed` of the bookkept records; when
all those differences are negative, or there is no bookkept record, the three
fields are still `0`.  The differences are Go's `-` on `int`: the integer
differences whenever these fit. -/
theorem C16_maxDiff_from_fresh (txs : List txInfo) (s : Stats) (fp : Bool)
    (h0 : s.maxDiff = 0) (hB : s.maxDiffBase = 0) (hY : s.maxDiffYolo = 0) :
    0 ≤ (statsAfter txs s fp).maxDiff ∧
    (statsAfter txs s fp).maxDiff =
      subInt (statsAfter txs s fp).maxDiffYolo (statsAfter txs s fp).maxDiffBase ∧
    (fitsInt ((statsAfter txs s fp).maxDiffYolo - (statsAfter txs s fp).maxDiffBase) →
      (statsAfter txs s fp).maxDiff =
        (statsAfter txs s fp).maxDiffYolo - (statsAfter txs s fp).maxDiffBase) ∧
    (statsAfter txs s fp).maxDiff = maxDelta fp txs ∧
    ((∀ tx ∈ txs, bookkept fp tx = true → fitsInt (tx.Yolo2xGasUsed - tx.MainGasUsed)) →
      (statsAfter txs s fp).maxDiff =
        ((txs.filter (bookkept fp)).map
          (fun tx => tx.Yolo2xGasUsed - tx.MainGasUsed)).foldl max 0) ∧
    ((∀ tx ∈ txs, bookkept fp tx = true → subInt tx.Yolo2xGasUsed tx.MainGasUsed < 0) →
      (statsAfter txs s fp).maxDiff = 0 ∧ (statsAfter txs s fp).maxDiffBase = 0 ∧
      (statsAfter txs s fp).maxDiffYolo = 0) ∧
    (∀ (w : World) (out : List txInfo) (ls : Stats),
      parseFiles w = { data := out, stats := some ls, err := none } →
      ls.maxDiff = 0 ∧ ls.maxDiffBase = 0 ∧ ls.maxDiffYolo = 0) := by
  rw [statsAfter_eq_foldl]
  have hle := foldl_maxDiff_le fp txs s
  rw [h0] at hle
  have hsub : (txs.foldl (stepStats fp) s).maxDiff =
      subInt (txs.foldl (stepStats fp) s).maxDiffYolo
        (txs.foldl (stepStats fp) s).maxDiffBase := by
    rcases foldl_trace fp txs s with ⟨a1, a2, a3⟩ | ⟨_, tx, _, _, hd, hb, hy⟩
    · rw [a1, a2, a3, h0, hB, hY]
      decide
    · rw [hb, hy]
      exact hd.symm
  refine ⟨hle, hsub, ?_, ?_, ?_, ?_, ?_⟩
  · intro hf
    rw [← subInt_of_fits _ _ hf]
    exact hsub
  · rw [foldl_maxDiff_eq, h0]
    rfl
  · intro hfit
    rw [foldl_maxDiff_eq, h0]
    congr 1
    apply List.map_congr_left
    intro tx htx
    rw [List.mem_filter] at htx
    exact subInt_of_fits _ _ (hfit tx htx.1 htx.2)
  · intro hneg
    rcases foldl_trace fp txs s with ⟨a1, a2, a3⟩ | ⟨lt, tx, hmem, hbk, hd, _, _⟩
    · exact ⟨a1.trans h0, a2.trans hB, a3.trans hY⟩
    · have := hneg tx hmem hbk
      omega
  · intro w out ls hload
    obtain ⟨_, _, _, c4, c5, c6⟩ := parseFiles_frame w out ls hload
    exact ⟨c4, c5, c6⟩

/-- C16 from a fresh `Stats` over Scenario B, whose only delta is `-5`, and
over a record whose difference wraps to a negative `int`: the tracker stays
at zero. -/
theorem C16_maxDiff_from_fresh_witness :
    maxDelta true [scenarioB] = 0 ∧
    (statsAfter [scenarioB] {} true).maxDiff = maxDelta true [scenarioB] ∧
    ((statsAfter [scenarioB] {} true).maxDiff = 0 ∧
      (statsAfter [scenarioB] {} true).maxDiffBase = 0 ∧
      (statsAfter [scenarioB] {} true).maxDiffYolo = 0) ∧
    ((statsAfter [wrapDeltaTx] {} true).maxDiff = 0 ∧
      (statsAfter [wrapDeltaTx] {} true).maxDiffBase = 0 ∧
      (statsAfter [wrapDeltaTx] {} true).maxDiffYolo = 0) :=
  ⟨by decide, (C16_maxDiff_from_fresh [scenarioB] {} true rfl rfl rfl).2.2.2.1,
   (C16_maxDiff_from_fresh [scenarioB] {} true rfl rfl rfl).2.2.2.2.2.1 (by decide),
   (C16_maxDiff_from_fresh [wrapDeltaTx] {} true rfl rfl rfl).2.2.2.2.2.1 (by decide)⟩

/-- C17: leniency only rescues broken records.  From the same `Stats` over
the same list, the run with `removeFP = true` ends with no more broken
records, no fewer unaffected and no fewer salvageable ones than the run with
`removeFP = false`, and the same `mainError`; and a record settled by the
main-error rule or by an exact match adds the same amounts to the four
counters in both runs and gets the same gas bookkeeping under either flag:
none if it is main-errored, otherwise `MainGasUsed` and the gas of the
variant that matched, added with Go's `+=`. -/
theorem C17_leniency_only_rescues (txs : List txInfo) (s : Stats) :
    (statsAfter txs s true).broken ≤ (statsAfter txs s false).broken ∧
    (statsAfter txs s true).unaffected ≥ (statsAfter txs s false).unaffected ∧
    (statsAfter txs s true).salvageable ≥ (statsAfter txs s false).salvageable ∧
    (statsAfter txs s true).mainError = (statsAfter txs s false).mainError ∧
    (∀ (pre : List txInfo) (tx : txInfo),
      tx.MainError = true ∨ (tx.YoloError = false ∧ tx.MainSteps = tx.YoloSteps) ∨
        (tx.Yolo2xError = false ∧ tx.MainSteps = tx.Yolo2xSteps) →
      ((statsAfter (pre ++ [tx]) s true).unaffected - (statsAfter pre s true).unaffected =
        (statsAfter (pre ++ [tx]) s false).unaffected - (statsAfter pre s false).unaffected ∧
      (statsAfter (pre ++ [tx]) s true).mainError - (statsAfter pre s true).mainError =
        (statsAfter (pre ++ [tx]) s false).mainError - (statsAfter pre s false).mainError ∧
      (statsAfter (pre ++ [tx]) s true).salvageable - (statsAfter pre s true).salvageable =
        (statsAfter (pre ++ [tx]) s false).salvageable -
          (statsAfter pre s false).salvageable ∧
      (statsAfter (pre ++ [tx]) s true).broken - (statsAfter pre s true).broken =
        (statsAfter (pre ++ [tx]) s false).broken - (statsAfter pre s false).broken) ∧
      (∀ fp : Bool,
        (statsAfter (pre ++ [tx]) s fp).gasUsedMain =
          (if tx.MainError = true then (statsAfter pre s fp).gasUsedMain
            else addInt (statsAfter pre s fp).gasUsedMain tx.MainGasUsed) ∧
        (statsAfter (pre ++ [tx]) s fp).gasUsedYolo =
          (if tx.MainError = true then (statsAfter pre s fp).gasUsedYolo
            else addInt (statsAfter pre s fp).gasUsedYolo
              (if tx.YoloError = false ∧ tx.MainSteps = tx.YoloSteps then tx.YoloGasUsed
                else tx.Yolo2xGasUsed)))) := by
  have h := leniency_foldl txs s s ⟨le_refl _, le_refl _, le_refl _, rfl⟩
  rw [← statsAfter_eq_foldl, ← statsAfter_eq_foldl] at h
  refine ⟨h.1, h.2.1, h.2.2.1, h.2.2.2, ?_⟩
  intro pre tx hk
  have hk' : tx.MainError = true ∨ exactYolo tx = true ∨ exactYolo2x tx = true := by
    rcases hk with hm | hy | hy2
    · exact Or.inl hm
    · exact Or.inr (Or.inl ((exactYolo_iff tx).2 hy))
    · exact Or.inr (Or.inr ((exactYolo2x_iff tx).2 hy2))
  refine ⟨?_, ?_⟩
  · rw [statsAfter_snoc, statsAfter_snoc]
    exact strict_step _ _ tx hk'
  · intro fp
    rw [statsAfter_snoc]
    have g := strict_gas fp (statsAfter pre s fp) tx hk'
    rw [g.1, g.2]
    refine ⟨rfl, ?_⟩
    by_cases hy : exactYolo tx = true
    · rw [if_pos hy, if_pos ((exactYolo_iff tx).1 hy)]
    · rw [if_neg hy, if_neg (fun hp => hy ((exactYolo_iff tx).2 hp))]

/-- C17 on Scenario C, which only leniency rescues, after Scenario B, which
matches exactly: one broken record fewer with the flag, and Scenario B adds
its yolo gas `90` in both runs.  After a record of `2^63 - 1` gas that only
leniency accepts, an exact match adds its one unit of gas in both runs: on
top of `2^63 - 1` with the flag, which wraps to `-2^63`, and on top of `0`
without it. -/
theorem C17_leniency_only_rescues_witness :
    (statsAfter [scenarioB, scenarioC] {} true).broken <
      (statsAfter [scenarioB, scenarioC] {} false).broken ∧
    (statsAfter ([] ++ [scenarioB]) {} true).gasUsedYolo = 90 ∧
    (statsAfter ([] ++ [scenarioB]) {} false).gasUsedYolo = 90 ∧
    (statsAfter ([lenientMaxGasTx] ++ [unitGasTx]) {} true).gasUsedMain =
      -9223372036854775808 ∧
    (statsAfter ([lenientMaxGasTx] ++ [unitGasTx]) {} false).gasUsedMain = 1 :=
  ⟨by decide,
   ((((C17_leniency_only_rescues [scenarioB, scenarioC] {}).2.2.2.2 [] scenarioB
      (Or.inr (Or.inl ⟨rfl, rfl⟩))).2 true).2).trans (by decide),
   ((((C17_leniency_only_rescues [scenarioB, scenarioC] {}).2.2.2.2 [] scenarioB
      (Or.inr (Or.inl ⟨rfl, rfl⟩))).2 false).2).trans (by decide),
   ((((C17_leniency_only_rescues [lenientMaxGasTx, unitGasTx] {}).2.2.2.2 [lenientMaxGasTx]
      unitGasTx (Or.inr (Or.inl ⟨rfl, rfl⟩))).2 true).1).trans (by decide),
   ((((C17_leniency_only_rescues [lenientMaxGasTx, unitGasTx] {}).2.2.2.2 [lenientMaxGasTx]
      unitGasTx (Or.inr (Or.inl ⟨rfl, rfl⟩))).2 false).1).trans (by decide)⟩

/-- C18: `analyseTransactions` never writes `numBlocks`, `numTxs`,
`emptyBlocks` or `gasUsedYolo2x`.  Its counters are the number of main-errored
records plus the number counted unaffected with gas bookkeeping, and the
number counted salvageable.  Hence from the `Stats` of `parseFiles`
`gasUsedYolo2x` is `0`, and the yolo total of the reporter,
`gasUsedYolo + gasUsedYolo2x`, is `gasUsedYolo`: the sum of `YoloGasUsed` over
the gas-bookkept unaffected records plus the sum of `Yolo2xGasUsed` over the
salvageable ones, as Go's `int` holds it (the integer sum whenever that fits,
its wrap-around otherwise); that is the number the gas line of the report
shows. -/
theorem C18_loader_fields_untouched (txs : List txInfo) (s : Stats) (fp : Bool) :
    ((statsAfter txs s fp).numBlocks = s.numBlocks ∧
      (statsAfter txs s fp).numTxs = s.numTxs ∧
      (statsAfter txs s fp).emptyBlocks = s.emptyBlocks ∧
      (statsAfter txs s fp).gasUsedYolo2x = s.gasUsedYolo2x) ∧
    ((statsAfter txs s fp).unaffected =
        s.unaffected + (txs.filter (fun tx => tx.MainError)).length +
          (txs.filter (gasUnaffected fp)).length ∧
      (statsAfter txs s fp).salvageable =
        s.salvageable + (txs.filter (countedSalvageable fp)).length) ∧
    (∀ (w : World) (out : List txInfo) (ls : Stats),
      parseFiles w = { data := out, stats := some ls, err := none } →
      (statsAfter out ls fp).gasUsedYolo2x = 0 ∧
      addInt (statsAfter out ls fp).gasUsedYolo (statsAfter out ls fp).gasUsedYolo2x =
        (statsAfter out ls fp).gasUsedYolo ∧
      (statsAfter out ls fp).gasUsedYolo =
        wrapInt (((out.filter (gasUnaffected fp)).map (fun tx => tx.YoloGasUsed)).sum +
          ((out.filter (countedSalvageable fp)).map (fun tx => tx.Yolo2xGasUsed)).sum) ∧
      (fitsInt (((out.filter (gasUnaffected fp)).map (fun tx => tx.YoloGasUsed)).sum +
          ((out.filter (countedSalvageable fp)).map (fun tx => tx.Yolo2xGasUsed)).sum) →
        (statsAfter out ls fp).gasUsedYolo =
          ((out.filter (gasUnaffected fp)).map (fun tx => tx.YoloGasUsed)).sum +
            ((out.filter (countedSalvageable fp)).map (fun tx => tx.Yolo2xGasUsed)).sum) ∧
      ((statsAfter out ls fp).gasUsedMain ≠ 0 →
        (statsAfter out ls fp).print.stdout[9]? =
          some ("Gas usage for mainnet vs yolo: `" ++
            toString (statsAfter out ls fp).gasUsedMain ++ "` vs `" ++
            toString (wrapInt
              (((out.filter (gasUnaffected fp)).map (fun tx => tx.YoloGasUsed)).sum +
                ((out.filter (countedSalvageable fp)).map
                  (fun tx => tx.Yolo2xGasUsed)).sum)) ++ "`\n"))) := by
  have frame : ∀ (l : List txInfo) (t : Stats),
      (statsAfter l t fp).numBlocks = t.numBlocks ∧ (statsAfter l t fp).numTxs = t.numTxs ∧
      (statsAfter l t fp).emptyBlocks = t.emptyBlocks ∧
      (statsAfter l t fp).gasUsedYolo2x = t.gasUsedYolo2x := by
    intro l t
    rw [statsAfter_eq_foldl]
    exact foldl_frame fp l t
  have closed : ∀ (l : List txInfo) (t : Stats),
      (statsAfter l t fp).unaffected =
        t.unaffected + (l.filter (fun tx => tx.MainError)).length +
          (l.filter (gasUnaffected fp)).length ∧
      (statsAfter l t fp).salvageable =
        t.salvageable + (l.filter (countedSalvageable fp)).length := by
    intro l t
    rw [statsAfter_eq_foldl]
    exact foldl_closed fp l t
  refine ⟨frame txs s, closed txs s, ?_⟩
  intro w out ls hload
  obtain ⟨_, c2, c3, _, _, _⟩ := parseFiles_frame w out ls hload
  have g2 : (statsAfter out ls fp).gasUsedYolo2x = 0 := (frame out ls).2.2.2.trans c3
  have hfit : fitsInt (statsAfter out ls fp).gasUsedYolo := by
    rw [statsAfter_eq_foldl]
    apply foldl_gasUsedYolo_fits
    rw [c2]
    decide
  have gy : (statsAfter out ls fp).gasUsedYolo =
      wrapInt (((out.filter (gasUnaffected fp)).map (fun tx => tx.YoloGasUsed)).sum +
        ((out.filter (countedSalvageable fp)).map (fun tx => tx.Yolo2xGasUsed)).sum) := by
    have e := foldl_gasUsedYolo fp out ls
    rw [← statsAfter_eq_foldl, c2, zero_add, wrapInt_of_fits _ hfit] at e
    exact e
  have gt : addInt (statsAfter out ls fp).gasUsedYolo (statsAfter out ls fp).gasUsedYolo2x =
      (statsAfter out ls fp).gasUsedYolo := by
    rw [g2]
    exact addInt_zero_of_fits _ hfit
  refine ⟨g2, gt, gy, ?_, ?_⟩
  · intro hf
    rw [gy]
    exact wrapInt_of_fits _ hf
  · intro hm
    rw [print_of_ne_zero _ hm, gt, gy]
    rfl

/-- C18 on the two block files of the demo directory: `gasUsedYolo2x` stays
`0` and the gas line of the report shows the yolo total `90`. -/
theorem C18_loader_fields_untouched_witness :
    parseFiles demoWorld =
      { data := (parseFiles demoWorld).data, stats := some { numBlocks := 2, numTxs := 3 },
        err := none } ∧
    (statsAfter (parseFiles demoWorld).data { numBlocks := 2, numTxs := 3 } true).gasUsedYolo2x
      = 0 ∧
    (statsAfter (parseFiles demoWorld).data { numBlocks := 2, numTxs := 3 } true).gasUsedYolo
      = 90 ∧
    (statsAfter (parseFiles demoWorld).data { numBlocks := 2, numTxs := 3 }
        true).print.stdout[9]? =
      some "Gas usage for mainnet vs yolo: `100` vs `90`\n" :=
  ⟨rfl,
   ((C18_loader_fields_untouched [] {} true).2.2 demoWorld (parseFiles demoWorld).data
      { numBlocks := 2, numTxs := 3 } rfl).1,
   (((C18_loader_fields_untouched [] {} true).2.2 demoWorld (parseFiles demoWorld).data
      { numBlocks := 2, numTxs := 3 } rfl).2.2.2.1 (by decide)).trans (by decide),
   (((C18_loader_fields_untouched [] {} true).2.2 demoWorld (parseFiles demoWorld).data
      { numBlocks := 2, numTxs := 3 } rfl).2.2.2.2 (by decide)).trans (by decide)⟩

end Eip2929
